import Mathlib

/-!
# Radio scanner: scan/lock engine of `radio_scanner_app.c`

A shallow embedding of `src/radio_scanner_app.c`.

* `uint32_t` values are natural numbers, arithmetic on them is taken modulo `2 ^ 32`.
* `float` values (`rssi`, `sensitivity`) are the finite binary32 values, taken as rational
  numbers.  Comparison with `>` is exact on them.  The additions `+= 5.0f` and `-= 5.0f`
  are the exact result rounded to binary32 (`f32_add`, `f32_sub`: 24 significant bits,
  nearest value, ties to even, subnormals from `2 ^ (-149)`).  Infinities and NaN are not
  represented: adding or subtracting 5 never leaves the finite range
  (`f32_step_stays_finite`), and a NaN sample compares like a sample that is not above the
  threshold.
* The hardware abstraction layer is outside the repository.  Its answers are oracles
  collected in `Hal`; the calls the program makes are recorded in `Sys.trace`, and the
  frequency last handed to `furi_hal_subghz_set_frequency` is kept in `Sys.tuned`.
* `speaker_on` contains the only loop whose exit depends on oracle answers.  It is run with
  a fuel bound; a result `none` means that the loop was still running when the fuel was
  used up.  The state reached so far is kept in that case, so that statements about the
  calls made hold for unfinished executions as well.
* GUI calls (`view_port_*`, `gui_*`), logging and memory management are not modelled.
-/

namespace RadioScanner

/-! ## Constants and machine arithmetic -/

/-- Lower end of the scanned range, `#define SUBGHZ_FREQUENCY_MIN 300000000`. -/
def SUBGHZ_FREQUENCY_MIN : Nat := 300000000

/-- Upper end of the scanned range, `#define SUBGHZ_FREQUENCY_MAX 928000000`. -/
def SUBGHZ_FREQUENCY_MAX : Nat := 928000000

/-- Scan step in Hz, `#define SUBGHZ_FREQUENCY_STEP 10000`. -/
def SUBGHZ_FREQUENCY_STEP : Nat := 10000

/-- Addition of `uint32_t` values. -/
def u32_add (a b : Nat) : Nat := (a + b) % 2 ^ 32

/-- Subtraction of `uint32_t` values (wraps below zero). -/
def u32_sub (a b : Nat) : Nat := (a % 2 ^ 32 + (2 ^ 32 - b % 2 ^ 32)) % 2 ^ 32

/-- Exponent of the last place of the binary32 values around `q ≠ 0`: the value has 24
significant bits, and the last place is never below the subnormal exponent `-149`. -/
def f32_quantum (q : ℚ) : ℤ := max (Int.log 2 |q| - 23) (-149)

/-- Rounding to the nearest integer, a tie going to the even neighbour. -/
def round_half_even (x : ℚ) : ℤ :=
  if x - ⌊x⌋ < 1 / 2 then ⌊x⌋
  else if 1 / 2 < x - ⌊x⌋ then ⌊x⌋ + 1
  else if ⌊x⌋ % 2 = 0 then ⌊x⌋
  else ⌊x⌋ + 1

/-- Rounding of an exact result to binary32 (round to nearest, ties to even). -/
def f32_round (q : ℚ) : ℚ :=
  if q = 0 then 0 else (round_half_even (q / 2 ^ f32_quantum q) : ℚ) * 2 ^ f32_quantum q

/-- Addition of `float` values. -/
def f32_add (a b : ℚ) : ℚ := f32_round (a + b)

/-- Subtraction of `float` values. -/
def f32_sub (a b : ℚ) : ℚ := f32_round (a - b)

/-- The largest finite binary32 value, `FLT_MAX`. -/
def F32_MAX : ℚ := 2 ^ 128 - 2 ^ 104

/-! ## Data model -/

/-- Modelled from the spec: the enum `ScanDirection` of `radio_scanner_app.h`
(the header is not part of the sources); the code uses `ScanDirectionUp` and
`ScanDirectionDown`. -/
inductive ScanDirection
  | ScanDirectionUp
  | ScanDirectionDown
  deriving DecidableEq

/-- Modelled from the spec: the keys of the firmware's `InputKey` enum, of which the main
loop tests `Ok`, `Up`, `Down`, `Left`, `Right` and `Back`. -/
inductive InputKey
  | InputKeyUp
  | InputKeyDown
  | InputKeyRight
  | InputKeyLeft
  | InputKeyOk
  | InputKeyBack
  deriving DecidableEq

/-- Modelled from the spec: the firmware's `InputType` enum; the main loop only reacts to
`InputTypeShort`. -/
inductive InputType
  | InputTypePress
  | InputTypeRelease
  | InputTypeShort
  | InputTypeLong
  | InputTypeRepeat
  deriving DecidableEq

/-- An `InputEvent` as read from the event queue (fields `type` and `key`). -/
structure InputEvent where
  type : InputType
  key : InputKey
  deriving DecidableEq

/-- Modelled from the spec: the struct `RadioScannerApp` of `radio_scanner_app.h`, with the
fields the scan engine reads and writes.  `radio_device` is a pointer, `none` is `NULL`;
`view_port` and `event_queue` are GUI handles and are left out. -/
structure RadioScannerApp where
  radio_device : Option Nat
  running : Bool
  frequency : Nat
  rssi : ℚ
  sensitivity : ℚ
  scanning : Bool
  scan_direction : ScanDirection

/-- Calls into the hardware abstraction layer, as they appear in the source. -/
inductive HalCall
  | furi_hal_subghz_reset
  | furi_hal_subghz_idle
  | furi_hal_subghz_is_frequency_valid (value : Nat)
  | furi_hal_subghz_set_frequency (value : Nat)
  | furi_hal_subghz_rx
  | furi_hal_subghz_sleep
  | furi_hal_subghz_get_rssi
  | furi_hal_speaker_acquire (timeout : Nat)
  | furi_hal_speaker_is_mine
  | furi_hal_speaker_release
  | subghz_devices_set_async_mirror_pin (device : Nat) (speaker_pin : Bool)
  | furi_delay_ms (ms : Nat)
  deriving DecidableEq

/-- Answers of the environment.  Oracles that are asked repeatedly are indexed by the
number of earlier calls, so that every sequence of answers is some `Hal`. -/
structure Hal where
  /-- Answer of `furi_hal_subghz_is_frequency_valid(value)`. -/
  furi_hal_subghz_is_frequency_valid : Nat → Bool
  /-- Value returned by the `n`-th call of `furi_hal_subghz_get_rssi()`. -/
  furi_hal_subghz_get_rssi : Nat → ℚ
  /-- Answer of the `n`-th call of `furi_hal_speaker_acquire(30)`. -/
  furi_hal_speaker_acquire : Nat → Bool
  /-- Answer of `furi_hal_speaker_is_mine()` at shutdown. -/
  furi_hal_speaker_is_mine : Bool
  /-- Result of the `n`-th `furi_message_queue_get`: `some event` for `FuriStatusOk`. -/
  furi_message_queue_get : Nat → Option InputEvent

/-- One RSSI measurement: where the receiver was tuned, what `app->frequency` held, and the
value stored into `app->rssi`. -/
structure Sample where
  tuned : Option Nat
  frequency : Nat
  rssi : ℚ

/-- Program state together with the state of its environment. -/
structure Sys where
  /-- The `RadioScannerApp` instance. -/
  app : RadioScannerApp
  /-- Frequency last passed to `furi_hal_subghz_set_frequency`, `none` before the first. -/
  tuned : Option Nat
  /-- Calls made so far, most recent first. -/
  trace : List HalCall
  /-- Number of `furi_hal_subghz_get_rssi` calls so far. -/
  rssi_calls : Nat
  /-- Number of `furi_hal_speaker_acquire` calls so far. -/
  acquire_calls : Nat
  /-- Number of `furi_message_queue_get` calls so far. -/
  queue_calls : Nat
  /-- Measurements taken by `radio_scanner_update_rssi`, most recent first. -/
  samples : List Sample

/-- Record a call that has no modelled effect besides having been made. -/
def Sys.call (s : Sys) (c : HalCall) : Sys :=
  { s with trace := c :: s.trace }

/-- The effect of `furi_hal_subghz_set_frequency(value)`: the receiver is tuned to `value`. -/
def furi_hal_subghz_set_frequency (value : Nat) (s : Sys) : Sys :=
  { s with tuned := some value, trace := HalCall.furi_hal_subghz_set_frequency value :: s.trace }

/-! ## Operations -/

/-- Source lines 46-50: `app->rssi = furi_hal_subghz_get_rssi();`. -/
def radio_scanner_update_rssi (hal : Hal) (s : Sys) : Sys :=
  let value := hal.furi_hal_subghz_get_rssi s.rssi_calls
  { s with
    app := { s.app with rssi := value }
    trace := HalCall.furi_hal_subghz_get_rssi :: s.trace
    rssi_calls := s.rssi_calls + 1
    samples := { tuned := s.tuned, frequency := s.app.frequency, rssi := value } :: s.samples }

/-- Source lines 52-71: reset, idle, validate `app->frequency`, tune, receive. -/
def radio_scanner_init_subghz (hal : Hal) (s : Sys) : Sys × Bool :=
  let s1 := { s with tuned := none, trace := HalCall.furi_hal_subghz_reset :: s.trace }
  let s2 := s1.call HalCall.furi_hal_subghz_idle
  let s3 := s2.call (HalCall.furi_hal_subghz_is_frequency_valid s2.app.frequency)
  if !hal.furi_hal_subghz_is_frequency_valid s2.app.frequency then
    (s3, false)
  else
    let s4 := furi_hal_subghz_set_frequency s3.app.frequency s3
    (s4.call HalCall.furi_hal_subghz_rx, true)

/-- Source lines 73-79: idle, tune to `app->frequency`, receive. -/
def subghz_txrx_rx (s : Sys) : Sys :=
  let s1 := s.call HalCall.furi_hal_subghz_idle
  let s2 := furi_hal_subghz_set_frequency s1.app.frequency s1
  s2.call HalCall.furi_hal_subghz_rx

/-- Source lines 81-85. -/
def subghz_txrx_rx_end (s : Sys) : Sys :=
  s.call HalCall.furi_hal_subghz_idle

/-- The `while(retry_count < max_retries)` loop of `speaker_on` (lines 92-110), entered with
the current `retry_count`.  Every evaluation of the loop condition uses one unit of fuel. -/
def speaker_on_loop (hal : Hal) : Nat → Nat → Sys → Sys × Option Bool
  | 0, _, s => (s, none)
  | fuel + 1, retry_count, s =>
    let max_retries := 5
    if retry_count < max_retries then
      let acquired := hal.furi_hal_speaker_acquire s.acquire_calls
      let s1 := { s with
        trace := HalCall.furi_hal_speaker_acquire 30 :: s.trace
        acquire_calls := s.acquire_calls + 1 }
      if acquired then
        match s1.app.radio_device with
        | some device =>
          (s1.call (HalCall.subghz_devices_set_async_mirror_pin device true), some true)
        | none => speaker_on_loop hal fuel retry_count s1
      else
        speaker_on_loop hal fuel (retry_count + 1) (s1.call (HalCall.furi_delay_ms 100))
    else
      (s, some false)

/-- Source lines 87-111: `retry_count = 0`, then the loop. -/
def speaker_on (hal : Hal) (fuel : Nat) (s : Sys) : Sys × Option Bool :=
  speaker_on_loop hal fuel 0 s

/-- Source lines 113-123. -/
def speaker_off (hal : Hal) (s : Sys) : Sys :=
  let s1 := s.call HalCall.furi_hal_speaker_is_mine
  if hal.furi_hal_speaker_is_mine then
    let s2 :=
      match s1.app.radio_device with
      | some device => s1.call (HalCall.subghz_devices_set_async_mirror_pin device false)
      | none => s1
    s2.call HalCall.furi_hal_speaker_release
  else
    s1

/-- How many of the `k` answers of `furi_hal_speaker_acquire` from call number `start` on
are failures. -/
def failed_acquisitions (hal : Hal) : Nat → Nat → Nat
  | _, 0 => 0
  | start, k + 1 =>
    (if hal.furi_hal_speaker_acquire start then 0 else 1) + failed_acquisitions hal (start + 1) k

/-- Source lines 144-149: the first value of `new_frequency`, one step from
`app->frequency` in the scan direction, computed in `uint32_t`. -/
def scan_candidate (app : RadioScannerApp) : Nat :=
  if app.scan_direction = ScanDirection.ScanDirectionUp then
    u32_add app.frequency SUBGHZ_FREQUENCY_STEP
  else
    u32_sub app.frequency SUBGHZ_FREQUENCY_STEP

/-- Source lines 153-156: a candidate outside the range is replaced by the minimum. -/
def reset_out_of_range (new_frequency : Nat) : Nat :=
  if new_frequency > SUBGHZ_FREQUENCY_MAX ∨ new_frequency < SUBGHZ_FREQUENCY_MIN then
    SUBGHZ_FREQUENCY_MIN
  else
    new_frequency

/-- Source lines 143-167, the block guarded by `if(app->scanning)`: compute the candidate,
reset it to the minimum when it leaves the range, then retune if the hardware accepts it. -/
def radio_scanner_advance_frequency (hal : Hal) (s : Sys) : Sys :=
  if s.app.scanning then
    let new_frequency := scan_candidate s.app
    let new_frequency := reset_out_of_range new_frequency
    let s1 := s.call (HalCall.furi_hal_subghz_is_frequency_valid new_frequency)
    if hal.furi_hal_subghz_is_frequency_valid new_frequency then
      let s2 := subghz_txrx_rx_end s1
      let s3 := { s2 with app := { s2.app with frequency := new_frequency } }
      subghz_txrx_rx s3
    else
      { s1 with app := { s1.app with frequency := SUBGHZ_FREQUENCY_MIN } }
  else
    s

/-- Source lines 125-170.  The second component is `some ()` when the call returned and
`none` when `speaker_on` was still looping at the end of the fuel. -/
def radio_scanner_process_scanning (hal : Hal) (fuel : Nat) (s : Sys) : Sys × Option Unit :=
  let s1 := radio_scanner_update_rssi hal s
  let signal_detected : Bool := decide (s1.app.rssi > s1.app.sensitivity)
  let after_decision : Sys × Option Unit :=
    if signal_detected then
      if s1.app.scanning then
        match speaker_on hal fuel s1 with
        | (s2, some _) => ({ s2 with app := { s2.app with scanning := false } }, some ())
        | (s2, none) => (s2, none)
      else
        (s1, some ())
    else
      ({ s1 with app := { s1.app with scanning := true } }, some ())
  match after_decision with
  | (s3, some _) => (radio_scanner_advance_frequency hal s3, some ())
  | (s3, none) => (s3, none)

/-- Source lines 172-188: the initial field values. -/
def radio_scanner_app_alloc : RadioScannerApp :=
  { radio_device := none
    running := true
    frequency := 433920000
    rssi := -100
    sensitivity := -105
    scanning := true
    scan_direction := ScanDirection.ScanDirectionUp }

/-- Source lines 226-248: the effect of one event taken from the queue. -/
def radio_scanner_app_handle_event (event : InputEvent) (app : RadioScannerApp) :
    RadioScannerApp :=
  if event.type = InputType.InputTypeShort then
    if event.key = InputKey.InputKeyOk then
      { app with scanning := !app.scanning }
    else if event.key = InputKey.InputKeyUp then
      { app with sensitivity := f32_add app.sensitivity 5 }
    else if event.key = InputKey.InputKeyDown then
      { app with sensitivity := f32_sub app.sensitivity 5 }
    else if event.key = InputKey.InputKeyLeft then
      { app with scan_direction := ScanDirection.ScanDirectionDown }
    else if event.key = InputKey.InputKeyRight then
      { app with scan_direction := ScanDirection.ScanDirectionUp }
    else if event.key = InputKey.InputKeyBack then
      { app with running := false }
    else
      app
  else
    app

/-- Source lines 218-252: one iteration of the main loop: tick or plain RSSI refresh, then
the queue poll with its event handling, then `furi_delay_ms(10)`. -/
def radio_scanner_app_iteration (hal : Hal) (fuel : Nat) (s : Sys) : Sys × Option Unit :=
  let after_tick : Sys × Option Unit :=
    if s.app.scanning then
      radio_scanner_process_scanning hal fuel s
    else
      (radio_scanner_update_rssi hal s, some ())
  match after_tick with
  | (s1, some _) =>
    let polled := hal.furi_message_queue_get s1.queue_calls
    let s2 := { s1 with queue_calls := s1.queue_calls + 1 }
    let s3 :=
      match polled with
      | some event => { s2 with app := radio_scanner_app_handle_event event s2.app }
      | none => s2
    (s3.call (HalCall.furi_delay_ms 10), some ())
  | (s1, none) => (s1, none)

/-- Source lines 217-253: `while(app->running)`, run for at most `n` iterations.  The second
component is `some ()` when the loop was left and `none` when it was still executing. -/
def radio_scanner_app_loop (hal : Hal) (fuel : Nat) : Nat → Sys → Sys × Option Unit
  | 0, s => (s, if s.app.running then none else some ())
  | n + 1, s =>
    if s.app.running then
      match radio_scanner_app_iteration hal fuel s with
      | (s1, some _) => radio_scanner_app_loop hal fuel n s1
      | (s1, none) => (s1, none)
    else
      (s, some ())

/-- The state right after `radio_scanner_app_alloc`, before any call was made. -/
def Sys.start : Sys :=
  { app := radio_scanner_app_alloc
    tuned := none
    trace := []
    rssi_calls := 0
    acquire_calls := 0
    queue_calls := 0
    samples := [] }

/-- Source lines 199-268: allocate, initialise the receiver (exit code 255 on failure), run
the main loop for at most `n` iterations, and shut down (exit code 0) once it was left.
The exit code is `none` while the program is still executing. -/
def radio_scanner_app (hal : Hal) (fuel n : Nat) : Sys × Option Int :=
  match radio_scanner_init_subghz hal Sys.start with
  | (s1, false) => (s1, some 255)
  | (s1, true) =>
    match radio_scanner_app_loop hal fuel n s1 with
    | (s2, some _) =>
      let s3 := s2.call HalCall.furi_hal_subghz_idle
      let s4 := s3.call HalCall.furi_hal_subghz_sleep
      (speaker_off hal s4, some 0)
    | (s2, none) => (s2, none)

/-! ## Concrete environments and states used in the examples -/

/-- An environment in which every frequency is accepted, every RSSI sample is `-110`, the
speaker is held by someone else, and no key is pressed. -/
def halQuiet : Hal :=
  { furi_hal_subghz_is_frequency_valid := fun _ => true
    furi_hal_subghz_get_rssi := fun _ => -110
    furi_hal_speaker_acquire := fun _ => false
    furi_hal_speaker_is_mine := false
    furi_message_queue_get := fun _ => none }

/-- As `halQuiet`, but every RSSI sample is `-90`, above the default threshold. -/
def halSignal : Hal :=
  { halQuiet with furi_hal_subghz_get_rssi := fun _ => -90 }

/-- As `halQuiet`, but the hardware accepts no frequency above 433,920,000 Hz: the default
frequency is the upper edge of a supported band. -/
def halBandEdge : Hal :=
  { halQuiet with furi_hal_subghz_is_frequency_valid := fun f => decide (f ≤ 433920000) }

/-- As `halSignal`, but every call of `furi_hal_speaker_acquire` succeeds. -/
def halSignalAcquireAlways : Hal :=
  { halSignal with furi_hal_speaker_acquire := fun _ => true }

/-- A short press of Up. -/
def shortUp : InputEvent := ⟨InputType.InputTypeShort, InputKey.InputKeyUp⟩

/-- The allocated program state with the threshold raised to 16,777,220. -/
def appHighThreshold : RadioScannerApp :=
  { radio_scanner_app_alloc with sensitivity := 16777220 }

/-- As `halQuiet`, but every call of `furi_hal_speaker_acquire` succeeds. -/
def halAcquireAlways : Hal :=
  { halQuiet with furi_hal_speaker_acquire := fun _ => true }

/-- As `halQuiet`, but the first call of `furi_hal_speaker_acquire` succeeds and the later
ones fail (the speaker is then already taken). -/
def halAcquireOnce : Hal :=
  { halQuiet with furi_hal_speaker_acquire := fun n => decide (n = 0) }

/-- The allocated state with `scanning` cleared: locked on the default frequency. -/
def Sys.locked : Sys :=
  { Sys.start with app := { radio_scanner_app_alloc with scanning := false } }

/-- The allocated state moved to `frequency`, scanning in `direction`. -/
def Sys.scanningAt (frequency : Nat) (direction : ScanDirection) : Sys :=
  { Sys.start with
    app := { radio_scanner_app_alloc with frequency := frequency, scan_direction := direction } }

/-- As `halQuiet`, but the first three RSSI samples are `-110` and the later ones `-90`. -/
def halThenSignal : Hal :=
  { halQuiet with furi_hal_subghz_get_rssi := fun n => if n < 3 then -110 else -90 }

/-- As `halQuiet`, but the second poll of the queue delivers a short press of Back. -/
def halBack : Hal :=
  { halQuiet with
    furi_message_queue_get := fun n =>
      if n = 1 then some ⟨InputType.InputTypeShort, InputKey.InputKeyBack⟩ else none }

/-! ## Invariant of the main loop -/

/-- Range of the scanned band. -/
def inBand (f : Nat) : Prop :=
  SUBGHZ_FREQUENCY_MIN ≤ f ∧ f ≤ SUBGHZ_FREQUENCY_MAX

instance (f : Nat) : Decidable (inBand f) :=
  inferInstanceAs (Decidable (SUBGHZ_FREQUENCY_MIN ≤ f ∧ f ≤ SUBGHZ_FREQUENCY_MAX))

/-- What holds of every state the program reaches once `radio_scanner_init_subghz` has
succeeded. -/
structure LoopInv (hal : Hal) (s : Sys) : Prop where
  /-- The field `frequency` lies in the scanned band. -/
  band : inBand s.app.frequency
  /-- The radio device pointer is `NULL`. -/
  device : s.app.radio_device = none
  /-- Every frequency handed to the receiver was accepted by the hardware predicate. -/
  tunedValid : ∀ f, HalCall.furi_hal_subghz_set_frequency f ∈ s.trace →
    hal.furi_hal_subghz_is_frequency_valid f = true
  /-- The mirror pin was never set. -/
  noPin : ∀ d p, HalCall.subghz_devices_set_async_mirror_pin d p ∉ s.trace
  /-- The receiver is tuned to `frequency`, unless `frequency` was reset to the minimum. -/
  tuned : s.tuned = some s.app.frequency ∨ s.app.frequency = SUBGHZ_FREQUENCY_MIN
  /-- The same for every measurement taken so far. -/
  samples : ∀ x ∈ s.samples, x.tuned = some x.frequency ∨ x.frequency = SUBGHZ_FREQUENCY_MIN
  /-- When the hardware accepts the whole band, the receiver is tuned to `frequency`. -/
  tunedExact : (∀ f, inBand f → hal.furi_hal_subghz_is_frequency_valid f = true) →
    s.tuned = some s.app.frequency
  /-- The same for every measurement taken so far. -/
  samplesExact : (∀ f, inBand f → hal.furi_hal_subghz_is_frequency_valid f = true) →
    ∀ x ∈ s.samples, x.tuned = some x.frequency

/-! ## Binary32 rounding -/

/-- The binary logarithm of a positive rational is fixed by the powers of two around it. -/
theorem log2_eq (q : ℚ) (n : ℤ) (hq : 0 < q) (hlo : (2 : ℚ) ^ n ≤ q)
    (hhi : q < (2 : ℚ) ^ (n + 1)) : Int.log 2 q = n := by
  have h1 : n ≤ Int.log 2 q := (Int.zpow_le_iff_le_log (by norm_num) hq).1 hlo
  have h2 : Int.log 2 q < n + 1 := (Int.lt_zpow_iff_log_lt (by norm_num) hq).1 hhi
  omega

/-- An integer is its own rounding. -/
theorem round_half_even_intCast (k : ℤ) : round_half_even (k : ℚ) = k := by
  unfold round_half_even
  simp

/-- A multiple of its own last place is a binary32 value: rounding returns it. -/
theorem f32_round_exact (q : ℚ) (k : ℤ) (h : q = k * 2 ^ f32_quantum q) : f32_round q = q := by
  unfold f32_round
  split_ifs with h0
  · exact h0.symm
  · have hpos : (2 : ℚ) ^ f32_quantum q ≠ 0 := zpow_ne_zero _ (by norm_num)
    have hdiv : q / 2 ^ f32_quantum q = (k : ℚ) := by
      rw [div_eq_iff hpos]; exact h
    rw [hdiv, round_half_even_intCast]
    exact h.symm

/-- Every integer of magnitude at most `2 ^ 24` is a binary32 value. -/
theorem f32_round_int (z : ℤ) (hz : |z| ≤ 2 ^ 24) : f32_round (z : ℚ) = z := by
  by_cases h0 : z = 0
  · subst h0; simp [f32_round]
  have habs : (0 : ℚ) < |(z : ℚ)| := abs_pos.2 (by exact_mod_cast h0)
  have hone : (1 : ℚ) ≤ |(z : ℚ)| := by
    have : (1 : ℤ) ≤ |z| := Int.one_le_abs h0
    exact_mod_cast this
  have hle : |(z : ℚ)| ≤ 2 ^ 24 := by exact_mod_cast hz
  have hlo : 0 ≤ Int.log 2 |(z : ℚ)| :=
    (Int.zpow_le_iff_le_log (by norm_num) habs).1 (by simpa using hone)
  have hhi : Int.log 2 |(z : ℚ)| < 25 :=
    (Int.lt_zpow_iff_log_lt (by norm_num) habs).1 (by
      calc |(z : ℚ)| ≤ 2 ^ 24 := hle
        _ < 2 ^ (25 : ℤ) := by norm_num)
  have hpow : (2 : ℚ) ^ Int.log 2 |(z : ℚ)| ≤ |(z : ℚ)| :=
    Int.zpow_log_le_self (by norm_num) habs
  have hp : f32_quantum (z : ℚ) = Int.log 2 |(z : ℚ)| - 23 := by
    unfold f32_quantum; omega
  generalize Int.log 2 |(z : ℚ)| = e at hlo hhi hpow hp
  by_cases he : e = 24
  · subst he
    have hzabs : |z| = 2 ^ 24 := by
      have hq : (2 : ℚ) ^ (24 : ℤ) ≤ |(z : ℚ)| := hpow
      norm_num at hq
      have h3 : (16777216 : ℤ) ≤ |z| := by exact_mod_cast hq
      omega
    have heven : z = (z / 2) * 2 := by
      rcases abs_eq (by norm_num : (0 : ℤ) ≤ 2 ^ 24) |>.1 hzabs with h | h <;> rw [h] <;>
        norm_num
    apply f32_round_exact _ (z / 2)
    rw [hp]
    norm_num
    exact_mod_cast heven
  · have hk : ∃ n : ℕ, (n : ℤ) = 23 - e := ⟨(23 - e).toNat, by omega⟩
    obtain ⟨n, hn⟩ := hk
    apply f32_round_exact _ (z * 2 ^ n)
    rw [hp]
    have : e - 23 = -(n : ℤ) := by omega
    rw [this, zpow_neg, zpow_natCast]
    push_cast
    field_simp

/-- Adding or subtracting 5 is exact on integers as long as magnitudes stay within
`2 ^ 24`. -/
theorem f32_step_int (z : ℤ) (hz : |z| + 5 ≤ 2 ^ 24) :
    f32_add (z : ℚ) 5 = ((z + 5 : ℤ) : ℚ) ∧ f32_sub (z : ℚ) 5 = ((z - 5 : ℤ) : ℚ) := by
  have h1 : |z + 5| ≤ 2 ^ 24 := by
    have := abs_add z 5
    norm_num at this ⊢
    omega
  have h2 : |z - 5| ≤ 2 ^ 24 := by
    have := abs_sub z 5
    norm_num at this ⊢
    omega
  constructor
  · unfold f32_add
    rw [show (z : ℚ) + 5 = ((z + 5 : ℤ) : ℚ) by push_cast; rfl]
    exact f32_round_int _ h1
  · unfold f32_sub
    rw [show (z : ℚ) - 5 = ((z - 5 : ℤ) : ℚ) by push_cast; rfl]
    exact f32_round_int _ h2

/-- Rounding does not go above an integer that the value is less than half a unit above. -/
theorem round_half_even_le (x : ℚ) (K : ℤ) (h : x < K + 1 / 2) : round_half_even x ≤ K := by
  have hfl : (⌊x⌋ : ℚ) ≤ x := Int.floor_le x
  unfold round_half_even
  split_ifs with h1 h2 h3
  · have : (⌊x⌋ : ℚ) < ((K + 1 : ℤ) : ℚ) := by push_cast; linarith
    have : ⌊x⌋ < K + 1 := by exact_mod_cast this
    omega
  · have : (⌊x⌋ : ℚ) < (K : ℚ) := by linarith
    have : ⌊x⌋ < K := by exact_mod_cast this
    omega
  · have : (⌊x⌋ : ℚ) < ((K + 1 : ℤ) : ℚ) := by push_cast; linarith
    have : ⌊x⌋ < K + 1 := by exact_mod_cast this
    omega
  · have : (⌊x⌋ : ℚ) < (K : ℚ) := by linarith
    have : ⌊x⌋ < K := by exact_mod_cast this
    omega

/-- Rounding does not go below an integer that the value is less than half a unit below. -/
theorem le_round_half_even (x : ℚ) (K : ℤ) (h : (K : ℚ) - 1 / 2 < x) :
    K ≤ round_half_even x := by
  have hfl : x < (⌊x⌋ : ℚ) + 1 := Int.lt_floor_add_one x
  unfold round_half_even
  split_ifs with h1 h2 h3
  · have : ((K - 1 : ℤ) : ℚ) < (⌊x⌋ : ℚ) := by push_cast; linarith
    have : K - 1 < ⌊x⌋ := by exact_mod_cast this
    omega
  · have : ((K - 2 : ℤ) : ℚ) < (⌊x⌋ : ℚ) := by push_cast; linarith
    have : K - 2 < ⌊x⌋ := by exact_mod_cast this
    omega
  · have : ((K - 1 : ℤ) : ℚ) < (⌊x⌋ : ℚ) := by push_cast; linarith
    have : K - 1 < ⌊x⌋ := by exact_mod_cast this
    omega
  · have : ((K - 2 : ℤ) : ℚ) < (⌊x⌋ : ℚ) := by push_cast; linarith
    have : K - 2 < ⌊x⌋ := by exact_mod_cast this
    omega

/-- The two bounds together, for magnitudes. -/
theorem abs_round_half_even_le (x : ℚ) (K : ℤ) (h : |x| < K + 1 / 2) :
    |(round_half_even x : ℚ)| ≤ K := by
  have h1 := round_half_even_le x K (lt_of_le_of_lt (le_abs_self x) h)
  have h2 := le_round_half_even x (-K) (by
    have := neg_abs_le x
    push_cast
    linarith)
  rw [abs_le]
  constructor
  · exact_mod_cast h2
  · exact_mod_cast h1

/-- A result within 5 of the finite range rounds into the finite range. -/
theorem f32_round_abs_le_max (q : ℚ) (hq : |q| ≤ F32_MAX + 5) : |f32_round q| ≤ F32_MAX := by
  unfold f32_round
  split_ifs with h0
  · simp [F32_MAX]; norm_num
  have habs : (0 : ℚ) < |q| := abs_pos.2 h0
  have hlt : |q| < 2 ^ (Int.log 2 |q| + 1) := Int.lt_zpow_succ_log_self (by norm_num) |q|
  have he : Int.log 2 |q| < 128 :=
    (Int.lt_zpow_iff_log_lt (by norm_num) habs).1 (by
      calc |q| ≤ F32_MAX + 5 := hq
        _ < 2 ^ (128 : ℤ) := by unfold F32_MAX; norm_num)
  have hppos : (0 : ℚ) < 2 ^ f32_quantum q := zpow_pos (by norm_num) _
  rw [abs_mul, abs_of_pos hppos]
  by_cases h127 : Int.log 2 |q| = 127
  · have hp : f32_quantum q = 104 := by unfold f32_quantum; omega
    rw [hp]
    have hm : |q / 2 ^ (104 : ℤ)| < ((2 ^ 24 - 1 : ℤ) : ℚ) + 1 / 2 := by
      rw [abs_div, abs_of_pos (by norm_num : (0 : ℚ) < 2 ^ (104 : ℤ)),
        div_lt_iff₀ (by norm_num)]
      calc |q| ≤ F32_MAX + 5 := hq
        _ < (((2 ^ 24 - 1 : ℤ) : ℚ) + 1 / 2) * 2 ^ (104 : ℤ) := by unfold F32_MAX; norm_num
    have hn := abs_round_half_even_le _ _ hm
    calc |(round_half_even (q / 2 ^ (104 : ℤ)) : ℚ)| * 2 ^ (104 : ℤ)
        ≤ ((2 ^ 24 - 1 : ℤ) : ℚ) * 2 ^ (104 : ℤ) := by
          apply mul_le_mul_of_nonneg_right hn (by norm_num)
      _ = F32_MAX := by unfold F32_MAX; norm_num
  · have hp1 : Int.log 2 |q| + 1 ≤ f32_quantum q + 24 := by unfold f32_quantum; omega
    have hp2 : f32_quantum q + 24 ≤ 127 := by unfold f32_quantum; omega
    have hm : |q / 2 ^ f32_quantum q| < ((2 ^ 24 : ℤ) : ℚ) + 1 / 2 := by
      rw [abs_div, abs_of_pos hppos, div_lt_iff₀ hppos]
      calc |q| < 2 ^ (Int.log 2 |q| + 1) := hlt
        _ ≤ 2 ^ (f32_quantum q + 24) := zpow_le_zpow_right₀ (by norm_num) hp1
        _ = 2 ^ (24 : ℤ) * 2 ^ f32_quantum q := by
          rw [zpow_add₀ (by norm_num : (2 : ℚ) ≠ 0), mul_comm]
        _ ≤ (((2 ^ 24 : ℤ) : ℚ) + 1 / 2) * 2 ^ f32_quantum q := by
          apply mul_le_mul_of_nonneg_right _ hppos.le
          norm_num
    have hn := abs_round_half_even_le _ _ hm
    calc |(round_half_even (q / 2 ^ f32_quantum q) : ℚ)| * 2 ^ f32_quantum q
        ≤ ((2 ^ 24 : ℤ) : ℚ) * 2 ^ f32_quantum q := by
          apply mul_le_mul_of_nonneg_right hn hppos.le
      _ = 2 ^ (f32_quantum q + 24) := by
          rw [zpow_add₀ (by norm_num : (2 : ℚ) ≠ 0), mul_comm]; norm_num
      _ ≤ 2 ^ (127 : ℤ) := zpow_le_zpow_right₀ (by norm_num) hp2
      _ ≤ F32_MAX := by unfold F32_MAX; norm_num

/-- Adding or subtracting 5 never leaves the finite range of binary32, so the infinities
are not needed to represent the threshold. -/
theorem f32_step_stays_finite (x : ℚ) (hx : |x| ≤ F32_MAX) :
    |f32_add x 5| ≤ F32_MAX ∧ |f32_sub x 5| ≤ F32_MAX := by
  constructor
  · apply f32_round_abs_le_max
    have := abs_add x 5
    norm_num at this
    linarith
  · apply f32_round_abs_le_max
    have := abs_sub x 5
    norm_num at this
    linarith

/-! ## The speaker loop -/

/-- The speaker loop leaves the program state, the receiver and the measurements alone and
only adds `furi_hal_speaker_acquire`, `furi_delay_ms` and, with a device present, mirror
pin calls to the trace. -/
theorem speaker_on_loop_frame (hal : Hal) (fuel : Nat) :
    ∀ (retry_count : Nat) (s : Sys),
      (speaker_on_loop hal fuel retry_count s).1.app = s.app ∧
      (speaker_on_loop hal fuel retry_count s).1.tuned = s.tuned ∧
      (speaker_on_loop hal fuel retry_count s).1.samples = s.samples ∧
      (speaker_on_loop hal fuel retry_count s).1.rssi_calls = s.rssi_calls ∧
      (speaker_on_loop hal fuel retry_count s).1.queue_calls = s.queue_calls ∧
      ∃ new, (speaker_on_loop hal fuel retry_count s).1.trace = new ++ s.trace ∧
        ∀ c ∈ new, c = HalCall.furi_hal_speaker_acquire 30 ∨ c = HalCall.furi_delay_ms 100 ∨
          ∃ d, s.app.radio_device = some d ∧
            c = HalCall.subghz_devices_set_async_mirror_pin d true := by
  induction fuel with
  | zero =>
    intro retry_count s
    exact ⟨rfl, rfl, rfl, rfl, rfl, [], rfl, by simp⟩
  | succ fuel ih =>
    intro retry_count s
    unfold speaker_on_loop
    by_cases hlt : retry_count < 5
    · by_cases hacq : hal.furi_hal_speaker_acquire s.acquire_calls = true
      · cases hdev : s.app.radio_device with
        | none =>
          simp only [hlt, hacq, hdev, if_true]
          obtain ⟨h1, h2, h3, h4, h5, new, h6, h7⟩ := ih retry_count
            { s with
              trace := HalCall.furi_hal_speaker_acquire 30 :: s.trace
              acquire_calls := s.acquire_calls + 1 }
          refine ⟨h1, h2, h3, h4, h5, new ++ [HalCall.furi_hal_speaker_acquire 30], ?_, ?_⟩
          · simpa using h6
          · intro c hc
            rcases List.mem_append.1 hc with hc | hc
            · rcases h7 c hc with h | h | ⟨d, hd, _⟩
              · exact Or.inl h
              · exact Or.inr (Or.inl h)
              · simp [hdev] at hd
            · exact Or.inl (by simpa using hc)
        | some d =>
          simp only [hlt, hacq, hdev, if_true, Sys.call]
          refine ⟨trivial, trivial, trivial, trivial, trivial,
            [HalCall.subghz_devices_set_async_mirror_pin d true,
              HalCall.furi_hal_speaker_acquire 30], rfl, ?_⟩
          intro c hc
          simp only [List.mem_cons, List.mem_singleton, List.not_mem_nil, or_false] at hc
          rcases hc with hc | hc
          · exact Or.inr (Or.inr ⟨d, rfl, hc⟩)
          · exact Or.inl hc
      · simp only [hlt, hacq, if_true, Sys.call]
        obtain ⟨h1, h2, h3, h4, h5, new, h6, h7⟩ := ih (retry_count + 1)
          { s with
            trace := HalCall.furi_delay_ms 100 :: HalCall.furi_hal_speaker_acquire 30 :: s.trace
            acquire_calls := s.acquire_calls + 1 }
        refine ⟨h1, h2, h3, h4, h5,
          new ++ [HalCall.furi_delay_ms 100, HalCall.furi_hal_speaker_acquire 30], ?_, ?_⟩
        · simpa using h6
        · intro c hc
          rcases List.mem_append.1 hc with hc | hc
          · exact h7 c hc
          · simp only [List.mem_cons, List.mem_singleton, List.not_mem_nil, or_false] at hc
            rcases hc with hc | hc
            · exact Or.inr (Or.inl hc)
            · exact Or.inl hc
    · simp only [hlt, if_false]
      exact ⟨trivial, trivial, trivial, trivial, trivial, [], rfl, by simp⟩

/-! ## Preservation of the loop invariant -/

/-- The invariant only depends on `frequency`, `radio_device`, the tuned frequency, the
measurements, and on the tuning and mirror pin calls of the trace. -/
theorem LoopInv.frame {hal : Hal} {s r : Sys} (h : LoopInv hal s)
    (hf : r.app.frequency = s.app.frequency)
    (hd : r.app.radio_device = s.app.radio_device)
    (ht : r.tuned = s.tuned) (hs : r.samples = s.samples)
    (htr : ∀ c ∈ r.trace, c ∈ s.trace ∨
      ((∀ f, c ≠ HalCall.furi_hal_subghz_set_frequency f) ∧
        ∀ d p, c ≠ HalCall.subghz_devices_set_async_mirror_pin d p)) :
    LoopInv hal r where
  band := by rw [hf]; exact h.band
  device := by rw [hd]; exact h.device
  tunedValid := by
    intro f hmem
    rcases htr _ hmem with hold | ⟨hne, _⟩
    · exact h.tunedValid f hold
    · exact absurd rfl (hne f)
  noPin := by
    intro d p hmem
    rcases htr _ hmem with hold | ⟨_, hne⟩
    · exact h.noPin d p hold
    · exact absurd rfl (hne d p)
  tuned := by rw [ht, hf]; exact h.tuned
  samples := by rw [hs]; exact h.samples
  tunedExact := by intro hall; rw [ht, hf]; exact h.tunedExact hall
  samplesExact := by intro hall; rw [hs]; exact h.samplesExact hall

/-- Sampling keeps the invariant: the new measurement is taken where the receiver is. -/
theorem LoopInv.sampled {hal : Hal} {s : Sys} (h : LoopInv hal s) :
    LoopInv hal (radio_scanner_update_rssi hal s) where
  band := h.band
  device := h.device
  tunedValid := by
    intro f hmem
    simp only [radio_scanner_update_rssi, List.mem_cons] at hmem
    rcases hmem with hmem | hmem
    · cases hmem
    · exact h.tunedValid f hmem
  noPin := by
    intro d p hmem
    simp only [radio_scanner_update_rssi, List.mem_cons] at hmem
    rcases hmem with hmem | hmem
    · cases hmem
    · exact h.noPin d p hmem
  tuned := h.tuned
  samples := by
    intro x hx
    simp only [radio_scanner_update_rssi, List.mem_cons] at hx
    rcases hx with hx | hx
    · subst hx; exact h.tuned
    · exact h.samples x hx
  tunedExact := h.tunedExact
  samplesExact := by
    intro hall x hx
    simp only [radio_scanner_update_rssi, List.mem_cons] at hx
    rcases hx with hx | hx
    · subst hx; exact h.tunedExact hall
    · exact h.samplesExact hall x hx

/-- The speaker loop keeps the invariant, also when it is cut off by the fuel. -/
theorem LoopInv.speaker {hal : Hal} {s : Sys} (h : LoopInv hal s)
    (fuel retry_count : Nat) : LoopInv hal (speaker_on_loop hal fuel retry_count s).1 := by
  obtain ⟨h1, h2, h3, _, _, new, h6, h7⟩ := speaker_on_loop_frame hal fuel retry_count s
  refine h.frame (by rw [h1]) (by rw [h1]) h2 h3 ?_
  intro c hc
  rw [h6] at hc
  rcases List.mem_append.1 hc with hc | hc
  · right
    rcases h7 c hc with hc | hc | ⟨d, hd, _⟩
    · subst hc; exact ⟨fun f hf => (by cases hf), fun d p hp => (by cases hp)⟩
    · subst hc; exact ⟨fun f hf => (by cases hf), fun d p hp => (by cases hp)⟩
    · rw [h.device] at hd; cases hd
  · exact Or.inl hc

/-- The value of `new_frequency` after the range check of lines 153-156 lies in the band. -/
theorem reset_candidate_inBand (c : Nat) : inBand (reset_out_of_range c) := by
  unfold inBand reset_out_of_range
  split
  · simp [SUBGHZ_FREQUENCY_MIN, SUBGHZ_FREQUENCY_MAX]
  · omega

/-- The frequency step keeps the invariant. -/
theorem LoopInv.advanced {hal : Hal} {s : Sys} (h : LoopInv hal s) :
    LoopInv hal (radio_scanner_advance_frequency hal s) := by
  unfold radio_scanner_advance_frequency
  by_cases hscan : s.app.scanning = true
  · simp only [hscan, if_true]
    have hband := reset_candidate_inBand (scan_candidate s.app)
    generalize reset_out_of_range (scan_candidate s.app) = nf at hband ⊢
    by_cases hvalid : hal.furi_hal_subghz_is_frequency_valid nf = true
    · simp only [hvalid, if_true]
      refine ⟨hband, h.device, ?_, ?_, Or.inl rfl, h.samples, fun _ => rfl, h.samplesExact⟩
      · intro f hmem
        simp [subghz_txrx_rx, subghz_txrx_rx_end, furi_hal_subghz_set_frequency, Sys.call]
          at hmem
        rcases hmem with hmem | hmem
        · rw [hmem]; exact hvalid
        · exact h.tunedValid f hmem
      · intro d p hmem
        simp [subghz_txrx_rx, subghz_txrx_rx_end, furi_hal_subghz_set_frequency, Sys.call]
          at hmem
        exact h.noPin d p hmem
    · simp only [hvalid, if_false]
      refine ⟨⟨le_refl _, by simp [SUBGHZ_FREQUENCY_MIN, SUBGHZ_FREQUENCY_MAX]⟩, h.device,
        ?_, ?_, Or.inr rfl, h.samples, ?_, h.samplesExact⟩
      · intro f hmem
        simp [Sys.call] at hmem
        exact h.tunedValid f hmem
      · intro d p hmem
        simp [Sys.call] at hmem
        exact h.noPin d p hmem
      · intro hall
        exact absurd (hall nf hband) hvalid
  · simp only [hscan]
    exact h

/-- Changing only `scanning` keeps the invariant. -/
theorem LoopInv.set_scanning {hal : Hal} {s : Sys} (h : LoopInv hal s) (b : Bool) :
    LoopInv hal { s with app := { s.app with scanning := b } } :=
  h.frame rfl rfl rfl rfl (fun _ hc => Or.inl hc)

/-- A tick keeps the invariant, also when it is cut off inside `speaker_on`. -/
theorem LoopInv.tick {hal : Hal} {s : Sys} (h : LoopInv hal s) (fuel : Nat) :
    LoopInv hal (radio_scanner_process_scanning hal fuel s).1 := by
  have h1 := h.sampled
  have h2 := h1.speaker fuel 0
  unfold radio_scanner_process_scanning
  simp only [speaker_on]
  by_cases hdet : (radio_scanner_update_rssi hal s).app.rssi >
      (radio_scanner_update_rssi hal s).app.sensitivity
  · by_cases hscan : (radio_scanner_update_rssi hal s).app.scanning = true
    · simp only [hdet, hscan, decide_True, if_true]
      rcases hres : speaker_on_loop hal fuel 0 (radio_scanner_update_rssi hal s) with ⟨s2, r⟩
      rw [hres] at h2
      cases r with
      | none => exact h2
      | some b => exact (h2.set_scanning false).advanced
    · simp only [hdet, hscan, decide_True, if_true]
      exact h1.advanced
  · simp only [hdet, decide_False]
    exact (h1.set_scanning true).advanced

/-- No event changes `frequency`, `rssi` or `radio_device`. -/
theorem handle_event_frame (event : InputEvent) (app : RadioScannerApp) :
    (radio_scanner_app_handle_event event app).frequency = app.frequency ∧
    (radio_scanner_app_handle_event event app).rssi = app.rssi ∧
    (radio_scanner_app_handle_event event app).radio_device = app.radio_device := by
  unfold radio_scanner_app_handle_event
  split_ifs <;> exact ⟨rfl, rfl, rfl⟩

/-- One iteration of the main loop keeps the invariant. -/
theorem LoopInv.iteration {hal : Hal} {s : Sys} (h : LoopInv hal s) (fuel : Nat) :
    LoopInv hal (radio_scanner_app_iteration hal fuel s).1 := by
  have key : ∀ t : Sys × Option Unit, LoopInv hal t.1 →
      LoopInv hal (match t with
        | (s1, some _) =>
          ((match hal.furi_message_queue_get s1.queue_calls with
            | some event =>
              { s1 with
                queue_calls := s1.queue_calls + 1
                app := radio_scanner_app_handle_event event s1.app }
            | none => { s1 with queue_calls := s1.queue_calls + 1 }).call
              (HalCall.furi_delay_ms 10), some ())
        | (s1, none) => (s1, none)).1 := by
    rintro ⟨s1, _ | u⟩ ht
    · exact ht
    · have hdelay : ∀ r : Sys, LoopInv hal r → LoopInv hal (r.call (HalCall.furi_delay_ms 10)) := by
        intro r hr
        refine hr.frame rfl rfl rfl rfl ?_
        intro c hc
        simp only [Sys.call, List.mem_cons] at hc
        rcases hc with hc | hc
        · subst hc; exact Or.inr ⟨fun f hf => (by cases hf), fun d p hp => (by cases hp)⟩
        · exact Or.inl hc
      cases hev : hal.furi_message_queue_get s1.queue_calls with
      | none =>
        simp only [hev]
        exact hdelay _ (LoopInv.frame ht rfl rfl rfl rfl (fun _ hc => Or.inl hc))
      | some event =>
        simp only [hev]
        obtain ⟨hf, _, hd⟩ := handle_event_frame event s1.app
        exact hdelay _ (LoopInv.frame ht hf hd rfl rfl (fun _ hc => Or.inl hc))
  unfold radio_scanner_app_iteration
  by_cases hscan : s.app.scanning = true
  · simp only [hscan, if_true]
    exact key _ (h.tick fuel)
  · simp only [hscan]
    exact key (radio_scanner_update_rssi hal s, some ()) h.sampled

/-- The main loop keeps the invariant for every number of iterations. -/
theorem LoopInv.loop {hal : Hal} (fuel n : Nat) :
    ∀ {s : Sys}, LoopInv hal s → LoopInv hal (radio_scanner_app_loop hal fuel n s).1 := by
  induction n with
  | zero => intro s h; exact h
  | succ n ih =>
    intro s h
    unfold radio_scanner_app_loop
    by_cases hrun : s.app.running = true
    · simp only [hrun, if_true]
      have hit := h.iteration fuel
      rcases hres : radio_scanner_app_iteration hal fuel s with ⟨s1, _ | u⟩
      · rw [hres] at hit; exact hit
      · rw [hres] at hit; exact ih hit
    · simp only [hrun]
      exact h

/-! ## Initialisation and the whole program -/

/-- The result of `radio_scanner_init_subghz` is the hardware predicate's answer for
`app->frequency`. -/
theorem init_subghz_result (hal : Hal) (s : Sys) :
    (radio_scanner_init_subghz hal s).2 = hal.furi_hal_subghz_is_frequency_valid s.app.frequency := by
  unfold radio_scanner_init_subghz
  cases hvalid : hal.furi_hal_subghz_is_frequency_valid s.app.frequency <;>
    simp [Sys.call, hvalid]

/-- A successful initialisation of the freshly allocated state establishes the invariant. -/
theorem init_subghz_establishes (hal : Hal)
    (hinit : (radio_scanner_init_subghz hal Sys.start).2 = true) :
    LoopInv hal (radio_scanner_init_subghz hal Sys.start).1 := by
  rw [init_subghz_result] at hinit
  have hstart : Sys.start.app.frequency = 433920000 := rfl
  unfold radio_scanner_init_subghz
  simp only [Sys.call, hinit, Bool.not_true, Bool.false_eq_true, if_false,
    furi_hal_subghz_set_frequency]
  refine ⟨⟨by simp [hstart, SUBGHZ_FREQUENCY_MIN], by simp [hstart, SUBGHZ_FREQUENCY_MAX]⟩,
    rfl, ?_, ?_, Or.inl rfl, ?_, fun _ => rfl, ?_⟩
  · intro f hmem
    simp [Sys.start] at hmem
    rw [hmem]; exact hinit
  · intro d p hmem
    simp [Sys.start] at hmem
  · intro x hx
    simp [Sys.start] at hx
  · intro _ x hx
    simp [Sys.start] at hx

/-- The shutdown sequence of lines 256-258 keeps the invariant. -/
theorem LoopInv.shutdown {hal : Hal} {s : Sys} (h : LoopInv hal s) :
    LoopInv hal (speaker_off hal
      ((s.call HalCall.furi_hal_subghz_idle).call HalCall.furi_hal_subghz_sleep)) := by
  refine h.frame ?_ ?_ ?_ ?_ ?_
  · unfold speaker_off; simp only [Sys.call, h.device]; split <;> rfl
  · unfold speaker_off; simp only [Sys.call, h.device]; split <;> exact h.device
  · unfold speaker_off; simp only [Sys.call, h.device]; split <;> rfl
  · unfold speaker_off; simp only [Sys.call, h.device]; split <;> rfl
  · intro c hc
    unfold speaker_off at hc
    simp only [Sys.call, h.device] at hc
    split at hc
    · simp only [List.mem_cons] at hc
      rcases hc with hc | hc | hc | hc | hc
      · subst hc; exact Or.inr ⟨fun f hf => (by cases hf), fun d p hp => (by cases hp)⟩
      · subst hc; exact Or.inr ⟨fun f hf => (by cases hf), fun d p hp => (by cases hp)⟩
      · subst hc; exact Or.inr ⟨fun f hf => (by cases hf), fun d p hp => (by cases hp)⟩
      · subst hc; exact Or.inr ⟨fun f hf => (by cases hf), fun d p hp => (by cases hp)⟩
      · exact Or.inl hc
    · simp only [List.mem_cons] at hc
      rcases hc with hc | hc | hc | hc
      · subst hc; exact Or.inr ⟨fun f hf => (by cases hf), fun d p hp => (by cases hp)⟩
      · subst hc; exact Or.inr ⟨fun f hf => (by cases hf), fun d p hp => (by cases hp)⟩
      · subst hc; exact Or.inr ⟨fun f hf => (by cases hf), fun d p hp => (by cases hp)⟩
      · exact Or.inl hc

/-- What holds of the state of every execution of `radio_scanner_app`, finished or not: the
invariant when initialisation succeeded, and otherwise the allocated program state with no
tuning, no mirror pin call and no measurement. -/
theorem radio_scanner_app_state (hal : Hal) (fuel n : Nat) :
    LoopInv hal (radio_scanner_app hal fuel n).1 ∨
    ((radio_scanner_app hal fuel n).1.app = radio_scanner_app_alloc ∧
      (∀ f, HalCall.furi_hal_subghz_set_frequency f ∉ (radio_scanner_app hal fuel n).1.trace) ∧
      (∀ d p, HalCall.subghz_devices_set_async_mirror_pin d p ∉
        (radio_scanner_app hal fuel n).1.trace) ∧
      (radio_scanner_app hal fuel n).1.samples = []) := by
  unfold radio_scanner_app
  rcases hinit : radio_scanner_init_subghz hal Sys.start with ⟨s1, b⟩
  cases b with
  | false =>
    right
    have hv : hal.furi_hal_subghz_is_frequency_valid 433920000 = false := by
      have := init_subghz_result hal Sys.start
      rw [hinit] at this
      exact this.symm
    have hs1 : s1 = (radio_scanner_init_subghz hal Sys.start).1 := by rw [hinit]
    subst hs1
    simp [radio_scanner_init_subghz, Sys.call, Sys.start, radio_scanner_app_alloc, hv]
  | true =>
    left
    have h1 : LoopInv hal s1 := by
      have := init_subghz_establishes hal (by rw [hinit])
      rwa [hinit] at this
    have h2 := LoopInv.loop fuel n h1
    simp only
    rcases hloop : radio_scanner_app_loop hal fuel n s1 with ⟨s2, _ | u⟩
    · rw [hloop] at h2; exact h2
    · rw [hloop] at h2; exact h2.shutdown

/-- Without a radio device the speaker loop never returns `true`. -/
theorem speaker_on_loop_null_device (hal : Hal) (fuel : Nat) :
    ∀ (retry_count : Nat) (s : Sys), s.app.radio_device = none →
      (speaker_on_loop hal fuel retry_count s).2 ≠ some true := by
  induction fuel with
  | zero => intro retry_count s _; simp [speaker_on_loop]
  | succ fuel ih =>
    intro retry_count s hdev
    unfold speaker_on_loop
    by_cases hlt : retry_count < 5
    · by_cases hacq : hal.furi_hal_speaker_acquire s.acquire_calls = true
      · simp only [hlt, hacq, hdev, if_true]
        exact ih _ _ hdev
      · simp only [hlt, hacq, if_true]
        exact ih _ _ hdev
    · simp [hlt]

/-- The speaker loop never lowers the call counter, and a loop that is entered below the
retry bound and returns has called `furi_hal_speaker_acquire` at least once. -/
theorem speaker_on_loop_calls (hal : Hal) (fuel : Nat) :
    ∀ (retry_count : Nat) (s : Sys),
      s.acquire_calls ≤ (speaker_on_loop hal fuel retry_count s).1.acquire_calls ∧
      (retry_count < 5 → ∀ r, (speaker_on_loop hal fuel retry_count s).2 = some r →
        s.acquire_calls < (speaker_on_loop hal fuel retry_count s).1.acquire_calls) := by
  induction fuel with
  | zero => intro retry_count s; simp [speaker_on_loop]
  | succ fuel ih =>
    intro retry_count s
    unfold speaker_on_loop
    by_cases hlt : retry_count < 5
    · by_cases hacq : hal.furi_hal_speaker_acquire s.acquire_calls = true
      · cases hdev : s.app.radio_device with
        | none =>
          simp only [hlt, hacq, hdev, if_true]
          have h := (ih retry_count
            { s with
              trace := HalCall.furi_hal_speaker_acquire 30 :: s.trace
              acquire_calls := s.acquire_calls + 1 }).1
          simp only at h
          exact ⟨by omega, fun _ _ _ => by omega⟩
        | some d =>
          simp [hlt, hacq, hdev, Sys.call]
      · simp only [hlt, hacq, if_true, Bool.false_eq_true, if_false, Sys.call]
        have h := (ih (retry_count + 1)
          { s with
            trace := HalCall.furi_delay_ms 100 :: HalCall.furi_hal_speaker_acquire 30 :: s.trace
            acquire_calls := s.acquire_calls + 1 }).1
        simp only at h
        exact ⟨by omega, fun _ _ _ => by omega⟩
    · simp [hlt]

/-- When every acquisition succeeds and there is no radio device, the speaker loop never
returns: after any amount of fuel it is still running and has made one call per unit. -/
theorem speaker_on_loop_spins (hal : Hal)
    (hacq : ∀ n, hal.furi_hal_speaker_acquire n = true) (fuel : Nat) :
    ∀ (retry_count : Nat) (s : Sys), retry_count < 5 → s.app.radio_device = none →
      (speaker_on_loop hal fuel retry_count s).2 = none ∧
      (speaker_on_loop hal fuel retry_count s).1.acquire_calls = s.acquire_calls + fuel := by
  induction fuel with
  | zero => intro retry_count s _ _; simp [speaker_on_loop]
  | succ fuel ih =>
    intro retry_count s hlt hdev
    unfold speaker_on_loop
    simp only [hlt, hacq, hdev, if_true]
    obtain ⟨h1, h2⟩ := ih retry_count
      { s with
        trace := HalCall.furi_hal_speaker_acquire 30 :: s.trace
        acquire_calls := s.acquire_calls + 1 } hlt hdev
    refine ⟨h1, ?_⟩
    rw [h2]
    simp only
    omega

/-- With a radio device present the speaker loop returns within the retry bound: enough
fuel gives a result after at most `5 - retry_count` calls, and the result is `false` only
when exactly that many calls were made, all failing. -/
theorem speaker_on_loop_bounded_with_device (hal : Hal) (d : Nat) (fuel : Nat) :
    ∀ (retry_count : Nat) (s : Sys), s.app.radio_device = some d → retry_count ≤ 5 →
      5 - retry_count < fuel →
      ∃ r, (speaker_on_loop hal fuel retry_count s).2 = some r ∧
        (speaker_on_loop hal fuel retry_count s).1.acquire_calls ≤
          s.acquire_calls + (5 - retry_count) ∧
        (r = false →
          (speaker_on_loop hal fuel retry_count s).1.acquire_calls =
            s.acquire_calls + (5 - retry_count) ∧
          ∀ i, i < 5 - retry_count →
            hal.furi_hal_speaker_acquire (s.acquire_calls + i) = false) := by
  induction fuel with
  | zero => intro retry_count s _ _ hfuel; omega
  | succ fuel ih =>
    intro retry_count s hdev hle hfuel
    unfold speaker_on_loop
    by_cases hlt : retry_count < 5
    · by_cases hacq : hal.furi_hal_speaker_acquire s.acquire_calls = true
      · simp only [hlt, hacq, hdev, if_true, Sys.call]
        exact ⟨true, rfl, (by omega), fun h => (by cases h)⟩
      · simp only [hlt, hacq, if_true, Bool.false_eq_true, if_false, Sys.call]
        obtain ⟨r, h1, h2, h3⟩ := ih (retry_count + 1)
          { s with
            trace := HalCall.furi_delay_ms 100 :: HalCall.furi_hal_speaker_acquire 30 :: s.trace
            acquire_calls := s.acquire_calls + 1 } hdev (by omega) (by omega)
        simp only at h2 h3
        refine ⟨r, h1, by omega, ?_⟩
        intro hr
        obtain ⟨h4, h5⟩ := h3 hr
        refine ⟨by omega, ?_⟩
        intro i hi
        cases i with
        | zero => simpa using hacq
        | succ j =>
          have := h5 j (by omega)
          rwa [show s.acquire_calls + 1 + j = s.acquire_calls + (j + 1) by omega] at this
    · have h5 : retry_count = 5 := by omega
      simp only [hlt, if_false]
      exact ⟨false, rfl, by omega, fun _ => ⟨by omega, fun i hi => by omega⟩⟩

/-- The speaker loop returns once enough acquisitions have failed: if `5 - retry_count` of
the next `k` answers are failures, more than `k` units of fuel give a result. -/
theorem speaker_on_loop_returns (hal : Hal) (k : Nat) :
    ∀ (retry_count : Nat) (s : Sys) (fuel : Nat), retry_count ≤ 5 →
      5 - retry_count ≤ failed_acquisitions hal s.acquire_calls k → k < fuel →
      ∃ r, (speaker_on_loop hal fuel retry_count s).2 = some r := by
  induction k with
  | zero =>
    intro retry_count s fuel hle hfail hfuel
    have h5 : ¬ retry_count < 5 := by
      simp only [failed_acquisitions] at hfail
      omega
    obtain ⟨fuel, rfl⟩ : ∃ m, fuel = m + 1 := ⟨fuel - 1, by omega⟩
    unfold speaker_on_loop
    simp only [h5, if_false]
    exact ⟨false, rfl⟩
  | succ k ih =>
    intro retry_count s fuel hle hfail hfuel
    obtain ⟨fuel, rfl⟩ : ∃ m, fuel = m + 1 := ⟨fuel - 1, by omega⟩
    unfold speaker_on_loop
    by_cases hlt : retry_count < 5
    · cases hacq : hal.furi_hal_speaker_acquire s.acquire_calls with
      | true =>
        simp only [failed_acquisitions, hacq, if_true, Nat.zero_add] at hfail
        cases hdev : s.app.radio_device with
        | none =>
          simp only [hlt, hdev, if_true]
          exact ih retry_count _ fuel hle hfail (by omega)
        | some d =>
          simp only [hlt, hdev, if_true, Sys.call]
          exact ⟨true, rfl⟩
      | false =>
        simp only [failed_acquisitions, hacq, Bool.false_eq_true, if_false] at hfail
        simp only [hlt, if_true, Bool.false_eq_true, if_false, Sys.call]
        exact ih (retry_count + 1) _ fuel (by omega) (by simp only; omega) (by omega)
    · simp only [hlt, if_false]
      exact ⟨false, rfl⟩

/-! ## Claims about whole executions -/

/-- C1: in every execution of `radio_scanner_app` (any validity predicate, RSSI samples,
speaker answers and key events, any number of main-loop iterations, finished or not) the
field `frequency` starts at 433,920,000 and stays within
`[SUBGHZ_FREQUENCY_MIN, SUBGHZ_FREQUENCY_MAX]`. -/
theorem frequency_range_invariant (hal : Hal) (fuel n : Nat) :
    radio_scanner_app_alloc.frequency = 433920000 ∧
    SUBGHZ_FREQUENCY_MIN ≤ (radio_scanner_app hal fuel n).1.app.frequency ∧
    (radio_scanner_app hal fuel n).1.app.frequency ≤ SUBGHZ_FREQUENCY_MAX := by
  refine ⟨rfl, ?_⟩
  rcases radio_scanner_app_state hal fuel n with h | ⟨h, _⟩
  · exact h.band
  · rw [h]
    simp [radio_scanner_app_alloc, SUBGHZ_FREQUENCY_MIN, SUBGHZ_FREQUENCY_MAX]

/-- C8: every frequency passed to `furi_hal_subghz_set_frequency` in an execution of
`radio_scanner_app` is accepted by `furi_hal_subghz_is_frequency_valid`, and
`radio_scanner_init_subghz` returns exactly the predicate's answer for `app->frequency`. -/
theorem tuned_only_to_valid_frequencies (hal : Hal) (fuel n : Nat) :
    (∀ f, HalCall.furi_hal_subghz_set_frequency f ∈ (radio_scanner_app hal fuel n).1.trace →
      hal.furi_hal_subghz_is_frequency_valid f = true) ∧
    (∀ s : Sys, (radio_scanner_init_subghz hal s).2 =
      hal.furi_hal_subghz_is_frequency_valid s.app.frequency) := by
  refine ⟨?_, init_subghz_result hal⟩
  intro f hmem
  rcases radio_scanner_app_state hal fuel n with h | ⟨_, h, _⟩
  · exact h.tunedValid f hmem
  · exact absurd hmem (h f)

/-- C10: in every execution of `radio_scanner_app` the pointer `radio_device` is `NULL`,
the trace holds no `subghz_devices_set_async_mirror_pin` call (neither binding nor
unbinding), and with a `NULL` device `speaker_on` never returns `true`. -/
theorem audio_never_routed (hal : Hal) (fuel n : Nat) :
    (radio_scanner_app hal fuel n).1.app.radio_device = none ∧
    (∀ d p, HalCall.subghz_devices_set_async_mirror_pin d p ∉
      (radio_scanner_app hal fuel n).1.trace) ∧
    (∀ (k : Nat) (s : Sys), s.app.radio_device = none →
      (speaker_on hal k s).2 ≠ some true) := by
  refine ⟨?_, ?_, fun k s hdev => speaker_on_loop_null_device hal k 0 s hdev⟩
  · rcases radio_scanner_app_state hal fuel n with h | ⟨h, _⟩
    · exact h.device
    · rw [h]; rfl
  · rcases radio_scanner_app_state hal fuel n with h | ⟨_, _, h, _⟩
    · exact h.noPin
    · exact h

/-- Witness for `tuned_only_to_valid_frequencies`: the first iteration retunes to
433,930,000 Hz, which the environment accepts. -/
theorem tuned_only_to_valid_frequencies_witness :
    HalCall.furi_hal_subghz_set_frequency 433930000 ∈ (radio_scanner_app halQuiet 0 1).1.trace ∧
    halQuiet.furi_hal_subghz_is_frequency_valid 433930000 = true :=
  ⟨by decide, (tuned_only_to_valid_frequencies halQuiet 0 1).1 433930000 (by decide)⟩

/-- Witness for `audio_never_routed`: in the allocated state, with the first acquisition
succeeding, `speaker_on` returns `false`. -/
theorem audio_never_routed_witness :
    Sys.start.app.radio_device = none ∧
    (speaker_on halAcquireOnce 7 Sys.start).2 = some false ∧
    (speaker_on halAcquireOnce 7 Sys.start).2 ≠ some true :=
  ⟨rfl, by decide, (audio_never_routed halAcquireOnce 0 0).2.2 7 Sys.start rfl⟩

/-- C6 (as stated, refuted): with a hardware predicate that rejects the first candidate,
initialisation succeeds and the second iteration measures the RSSI while the receiver is
tuned to 433,920,000 Hz and `frequency` holds 300,000,000. -/
theorem rssi_sampled_off_frequency :
    (radio_scanner_init_subghz halBandEdge Sys.start).2 = true ∧
    ∃ x ∈ (radio_scanner_app halBandEdge 1 2).1.samples,
      x.tuned = some 433920000 ∧ x.frequency = 300000000 ∧ x.tuned ≠ some x.frequency := by
  decide

/-- C6 (amended): at every measurement of `radio_scanner_update_rssi` the receiver is tuned
to `frequency`, or `frequency` is `SUBGHZ_FREQUENCY_MIN` (written without retuning after a
rejected candidate); when the hardware predicate accepts every frequency of the band, the
receiver is tuned to `frequency` at every measurement. -/
theorem rssi_sampled_at_tuned_or_minimum (hal : Hal) (fuel n : Nat) :
    (∀ x ∈ (radio_scanner_app hal fuel n).1.samples,
      x.tuned = some x.frequency ∨ x.frequency = SUBGHZ_FREQUENCY_MIN) ∧
    ((∀ f, SUBGHZ_FREQUENCY_MIN ≤ f ∧ f ≤ SUBGHZ_FREQUENCY_MAX →
        hal.furi_hal_subghz_is_frequency_valid f = true) →
      ∀ x ∈ (radio_scanner_app hal fuel n).1.samples, x.tuned = some x.frequency) := by
  rcases radio_scanner_app_state hal fuel n with h | ⟨_, _, _, h⟩
  · exact ⟨h.samples, fun hall => h.samplesExact hall⟩
  · rw [h]
    exact ⟨fun x hx => (by cases hx), fun _ x hx => (by cases hx)⟩

/-- Witness for `rssi_sampled_at_tuned_or_minimum`: two iterations in an environment that
accepts every frequency take two measurements, each at the frequency the state reports. -/
theorem rssi_sampled_at_tuned_or_minimum_witness :
    (radio_scanner_app halQuiet 0 2).1.samples.length = 2 ∧
    ∀ x ∈ (radio_scanner_app halQuiet 0 2).1.samples, x.tuned = some x.frequency :=
  ⟨by decide, (rssi_sampled_at_tuned_or_minimum halQuiet 0 2).2 (fun _ _ => rfl)⟩

/-- Three iterations below the threshold and a fourth above it: the program ends locked at
433,950,000 Hz after five failed speaker acquisitions, and is still executing. -/
theorem scan_then_lock_run :
    (radio_scanner_app halThenSignal 6 4).2 = none ∧
    (radio_scanner_app halThenSignal 6 4).1.app.scanning = false ∧
    (radio_scanner_app halThenSignal 6 4).1.app.frequency = 433950000 ∧
    (radio_scanner_app halThenSignal 6 4).1.tuned = some 433950000 ∧
    (radio_scanner_app halThenSignal 6 4).1.acquire_calls = 5 := by
  decide

/-- A short press of Back in the second iteration ends the program with exit code 0, and a
rejected initial frequency ends it with exit code 255. -/
theorem exit_codes :
    (radio_scanner_app halBack 0 5).2 = some 0 ∧
    (radio_scanner_app halBack 0 5).1.queue_calls = 2 ∧
    (radio_scanner_app { halQuiet with furi_hal_subghz_is_frequency_valid := fun _ => false }
      0 5).2 = some 255 := by
  decide

/-! ## Claims about one tick -/

/-- The program state after the frequency step of a scanning state. -/
theorem advance_frequency_app (hal : Hal) (s : Sys) (hscan : s.app.scanning = true) :
    (radio_scanner_advance_frequency hal s).app =
      { s.app with
        frequency :=
          if hal.furi_hal_subghz_is_frequency_valid
              (reset_out_of_range (scan_candidate s.app)) then
            reset_out_of_range (scan_candidate s.app)
          else SUBGHZ_FREQUENCY_MIN } ∧
    (radio_scanner_advance_frequency hal s).rssi_calls = s.rssi_calls := by
  unfold radio_scanner_advance_frequency
  by_cases hvalid : hal.furi_hal_subghz_is_frequency_valid
      (reset_out_of_range (scan_candidate s.app)) = true
  · simp [hscan, hvalid, subghz_txrx_rx, subghz_txrx_rx_end, furi_hal_subghz_set_frequency,
      Sys.call]
  · simp [hscan, hvalid, Sys.call]

/-- A tick whose sample is not above the threshold does not call `speaker_on`: it sets
`scanning` and goes on to the frequency step. -/
theorem process_scanning_no_signal (hal : Hal) (fuel : Nat) (s : Sys)
    (hrssi : hal.furi_hal_subghz_get_rssi s.rssi_calls ≤ s.app.sensitivity) :
    radio_scanner_process_scanning hal fuel s =
      (radio_scanner_advance_frequency hal
        { radio_scanner_update_rssi hal s with
          app := { (radio_scanner_update_rssi hal s).app with scanning := true } },
        some ()) := by
  have hnot : ¬ (radio_scanner_update_rssi hal s).app.rssi >
      (radio_scanner_update_rssi hal s).app.sensitivity := not_lt.2 hrssi
  unfold radio_scanner_process_scanning
  simp only [hnot, decide_False, Bool.false_eq_true, if_false]

/-- The program state after a tick whose sample is not above the threshold. -/
theorem process_scanning_no_signal_app (hal : Hal) (fuel : Nat) (s : Sys)
    (hrssi : hal.furi_hal_subghz_get_rssi s.rssi_calls ≤ s.app.sensitivity) :
    (radio_scanner_process_scanning hal fuel s).2 = some () ∧
    (radio_scanner_process_scanning hal fuel s).1.app =
      { s.app with
        rssi := hal.furi_hal_subghz_get_rssi s.rssi_calls
        scanning := true
        frequency :=
          if hal.furi_hal_subghz_is_frequency_valid
              (reset_out_of_range (scan_candidate s.app)) then
            reset_out_of_range (scan_candidate s.app)
          else SUBGHZ_FREQUENCY_MIN } ∧
    (radio_scanner_process_scanning hal fuel s).1.rssi_calls = s.rssi_calls + 1 := by
  rw [process_scanning_no_signal hal fuel s hrssi]
  obtain ⟨h1, h2⟩ := advance_frequency_app hal
    { radio_scanner_update_rssi hal s with
      app := { (radio_scanner_update_rssi hal s).app with scanning := true } } rfl
  exact ⟨rfl, h1, h2⟩

/-- A candidate inside the band is one exact step away from a `uint32_t` frequency. -/
theorem scan_candidate_exact (app : RadioScannerApp) (hu32 : app.frequency < 2 ^ 32)
    (hband : inBand (scan_candidate app)) :
    (app.scan_direction = ScanDirection.ScanDirectionUp →
      scan_candidate app = app.frequency + 10000) ∧
    (app.scan_direction = ScanDirection.ScanDirectionDown →
      scan_candidate app + 10000 = app.frequency) := by
  unfold inBand scan_candidate u32_add u32_sub SUBGHZ_FREQUENCY_MIN SUBGHZ_FREQUENCY_MAX
    SUBGHZ_FREQUENCY_STEP at *
  norm_num at hu32 hband ⊢
  constructor
  · intro hdir
    rw [if_pos hdir] at hband ⊢
    omega
  · intro hdir
    have hne : app.scan_direction ≠ ScanDirection.ScanDirectionUp := by rw [hdir]; decide
    rw [if_neg hne] at hband ⊢
    omega

/-- Scanning upwards, a step that stays inside the range is taken as it is. -/
theorem candidate_step_up (app : RadioScannerApp)
    (hdir : app.scan_direction = ScanDirection.ScanDirectionUp)
    (hlo : SUBGHZ_FREQUENCY_MIN ≤ app.frequency + 10000)
    (hhi : app.frequency + 10000 ≤ SUBGHZ_FREQUENCY_MAX) :
    reset_out_of_range (scan_candidate app) = app.frequency + 10000 := by
  unfold reset_out_of_range scan_candidate u32_add SUBGHZ_FREQUENCY_STEP
  unfold SUBGHZ_FREQUENCY_MIN at *
  unfold SUBGHZ_FREQUENCY_MAX at *
  rw [if_pos hdir]
  norm_num
  split_ifs with hout <;> omega

/-- C3 (as stated, refuted): from the default state with a sample of `-110`, the candidate
433,930,000 lies inside the range, yet the tick ends with `frequency = 300,000,000` because
the hardware predicate rejects the candidate; three such ticks end at 300,020,000 and not at
433,950,000. -/
theorem advance_blocked_by_validity :
    halBandEdge.furi_hal_subghz_get_rssi Sys.start.rssi_calls ≤ Sys.start.app.sensitivity ∧
    scan_candidate Sys.start.app = 433930000 ∧
    SUBGHZ_FREQUENCY_MIN ≤ scan_candidate Sys.start.app ∧
    scan_candidate Sys.start.app ≤ SUBGHZ_FREQUENCY_MAX ∧
    (radio_scanner_process_scanning halBandEdge 0 Sys.start).1.app.frequency = 300000000 ∧
    (radio_scanner_process_scanning halBandEdge 0
      (radio_scanner_process_scanning halBandEdge 0
        (radio_scanner_process_scanning halBandEdge 0 Sys.start).1).1).1.app.frequency =
      300020000 := by
  decide

/-- C3 (amended): a tick whose sample is not above the threshold (equality included) returns
with `scanning = true`.  If the candidate, one step of 10,000 Hz in the scan direction, lies
in the range and the hardware predicate accepts it, `frequency` becomes the candidate; if
the candidate leaves the range or the predicate rejects it, `frequency` becomes
`SUBGHZ_FREQUENCY_MIN`.  From the default state, when the predicate accepts 433,930,000,
433,940,000 and 433,950,000, three ticks with samples of `-110` end with `scanning = true`
and `frequency = 433,950,000`. -/
theorem advance_on_no_detection (hal : Hal) (fuel : Nat) :
    (∀ s : Sys, hal.furi_hal_subghz_get_rssi s.rssi_calls ≤ s.app.sensitivity →
      (radio_scanner_process_scanning hal fuel s).2 = some () ∧
      (radio_scanner_process_scanning hal fuel s).1.app.scanning = true ∧
      (inBand (scan_candidate s.app) →
        hal.furi_hal_subghz_is_frequency_valid (scan_candidate s.app) = true →
        (radio_scanner_process_scanning hal fuel s).1.app.frequency = scan_candidate s.app) ∧
      (inBand (scan_candidate s.app) → s.app.frequency < 2 ^ 32 →
        (s.app.scan_direction = ScanDirection.ScanDirectionUp →
          scan_candidate s.app = s.app.frequency + 10000) ∧
        (s.app.scan_direction = ScanDirection.ScanDirectionDown →
          scan_candidate s.app + 10000 = s.app.frequency)) ∧
      (¬ inBand (scan_candidate s.app) ∨
          hal.furi_hal_subghz_is_frequency_valid (scan_candidate s.app) = false →
        (radio_scanner_process_scanning hal fuel s).1.app.frequency = SUBGHZ_FREQUENCY_MIN)) ∧
    (hal.furi_hal_subghz_is_frequency_valid 433930000 = true →
      hal.furi_hal_subghz_is_frequency_valid 433940000 = true →
      hal.furi_hal_subghz_is_frequency_valid 433950000 = true →
      hal.furi_hal_subghz_get_rssi 0 = -110 →
      hal.furi_hal_subghz_get_rssi 1 = -110 →
      hal.furi_hal_subghz_get_rssi 2 = -110 →
      (radio_scanner_process_scanning hal fuel
        (radio_scanner_process_scanning hal fuel
          (radio_scanner_process_scanning hal fuel Sys.start).1).1).1.app.scanning = true ∧
      (radio_scanner_process_scanning hal fuel
        (radio_scanner_process_scanning hal fuel
          (radio_scanner_process_scanning hal fuel Sys.start).1).1).1.app.frequency =
        433950000) := by
  constructor
  · intro s hrssi
    obtain ⟨hret, happ, _⟩ := process_scanning_no_signal_app hal fuel s hrssi
    refine ⟨hret, by rw [happ], ?_, fun hband hu32 => scan_candidate_exact s.app hu32 hband, ?_⟩
    · intro hband hvalid
      have hkeep : reset_out_of_range (scan_candidate s.app) = scan_candidate s.app := by
        unfold reset_out_of_range
        unfold inBand at hband
        rw [if_neg (by omega)]
      rw [happ]
      simp only [hkeep, hvalid, if_true]
    · intro hcase
      rw [happ]
      by_cases hband : inBand (scan_candidate s.app)
      · have hkeep : reset_out_of_range (scan_candidate s.app) = scan_candidate s.app := by
          unfold reset_out_of_range
          unfold inBand at hband
          rw [if_neg (by omega)]
        have hrej : hal.furi_hal_subghz_is_frequency_valid (scan_candidate s.app) = false := by
          rcases hcase with h | h
          · exact absurd hband h
          · exact h
        simp [hkeep, hrej]
      · have hreset : reset_out_of_range (scan_candidate s.app) = SUBGHZ_FREQUENCY_MIN := by
          unfold reset_out_of_range
          unfold inBand at hband
          rw [if_pos (by omega)]
        simp [hreset]
  · intro hv1 hv2 hv3 hr0 hr1 hr2
    have hs0 : hal.furi_hal_subghz_get_rssi Sys.start.rssi_calls ≤ Sys.start.app.sensitivity := by
      show hal.furi_hal_subghz_get_rssi 0 ≤ (-105 : ℚ)
      rw [hr0]; norm_num
    obtain ⟨_, happ1, hcalls1⟩ := process_scanning_no_signal_app hal fuel Sys.start hs0
    have hc1 : reset_out_of_range (scan_candidate Sys.start.app) = 433930000 := by decide
    rw [hc1, if_pos hv1] at happ1
    have hs1 : hal.furi_hal_subghz_get_rssi
        (radio_scanner_process_scanning hal fuel Sys.start).1.rssi_calls ≤
        (radio_scanner_process_scanning hal fuel Sys.start).1.app.sensitivity := by
      rw [hcalls1, happ1]
      show hal.furi_hal_subghz_get_rssi 1 ≤ (-105 : ℚ)
      rw [hr1]; norm_num
    obtain ⟨_, happ2, hcalls2⟩ := process_scanning_no_signal_app hal fuel _ hs1
    have hc2 : reset_out_of_range
        (scan_candidate (radio_scanner_process_scanning hal fuel Sys.start).1.app) =
        433940000 := by
      rw [happ1]
      exact candidate_step_up _ rfl
        (show SUBGHZ_FREQUENCY_MIN ≤ 433930000 + 10000 by decide)
        (show 433930000 + 10000 ≤ SUBGHZ_FREQUENCY_MAX by decide)
    rw [hc2, if_pos hv2, happ1] at happ2
    have hs2 : hal.furi_hal_subghz_get_rssi
        (radio_scanner_process_scanning hal fuel
          (radio_scanner_process_scanning hal fuel Sys.start).1).1.rssi_calls ≤
        (radio_scanner_process_scanning hal fuel
          (radio_scanner_process_scanning hal fuel Sys.start).1).1.app.sensitivity := by
      rw [hcalls2, hcalls1, happ2]
      show hal.furi_hal_subghz_get_rssi 2 ≤ (-105 : ℚ)
      rw [hr2]; norm_num
    obtain ⟨_, happ3, _⟩ := process_scanning_no_signal_app hal fuel _ hs2
    have hc3 : reset_out_of_range
        (scan_candidate (radio_scanner_process_scanning hal fuel
          (radio_scanner_process_scanning hal fuel Sys.start).1).1.app) = 433950000 := by
      rw [happ2]
      exact candidate_step_up _ rfl
        (show SUBGHZ_FREQUENCY_MIN ≤ 433940000 + 10000 by decide)
        (show 433940000 + 10000 ≤ SUBGHZ_FREQUENCY_MAX by decide)
    rw [hc3, if_pos hv3] at happ3
    rw [happ3]
    exact ⟨rfl, rfl⟩

/-- Witness for `advance_on_no_detection`: the default state in an environment that accepts
every frequency and always measures `-110`. -/
theorem advance_on_no_detection_witness :
    halQuiet.furi_hal_subghz_get_rssi Sys.start.rssi_calls ≤ Sys.start.app.sensitivity ∧
    (radio_scanner_process_scanning halQuiet 0 Sys.start).1.app.frequency = 433930000 ∧
    (radio_scanner_process_scanning halQuiet 0
      (radio_scanner_process_scanning halQuiet 0
        (radio_scanner_process_scanning halQuiet 0 Sys.start).1).1).1.app.frequency =
      433950000 :=
  ⟨by decide,
    ((advance_on_no_detection halQuiet 0).1 Sys.start (by decide)).2.2.1
      (by decide) (by decide),
    ((advance_on_no_detection halQuiet 0).2 rfl rfl rfl rfl rfl rfl).2⟩

/-- C4: in a tick whose sample is not above the threshold, a candidate outside
`[SUBGHZ_FREQUENCY_MIN, SUBGHZ_FREQUENCY_MAX]` makes `frequency` the minimum, whatever the
hardware predicate answers; stepping up from the maximum and stepping down from the minimum
both end at the minimum. -/
theorem wraparound_to_minimum (hal : Hal) (fuel : Nat) (s : Sys)
    (hrssi : hal.furi_hal_subghz_get_rssi s.rssi_calls ≤ s.app.sensitivity) :
    (inBand s.app.frequency →
      scan_candidate s.app > SUBGHZ_FREQUENCY_MAX ∨
        scan_candidate s.app < SUBGHZ_FREQUENCY_MIN →
      (radio_scanner_process_scanning hal fuel s).2 = some () ∧
      (radio_scanner_process_scanning hal fuel s).1.app.frequency = SUBGHZ_FREQUENCY_MIN) ∧
    (s.app.frequency = SUBGHZ_FREQUENCY_MAX →
      s.app.scan_direction = ScanDirection.ScanDirectionUp →
      (radio_scanner_process_scanning hal fuel s).1.app.frequency = SUBGHZ_FREQUENCY_MIN) ∧
    (s.app.frequency = SUBGHZ_FREQUENCY_MIN →
      s.app.scan_direction = ScanDirection.ScanDirectionDown →
      (radio_scanner_process_scanning hal fuel s).1.app.frequency = SUBGHZ_FREQUENCY_MIN) := by
  obtain ⟨hret, happ, _⟩ := process_scanning_no_signal_app hal fuel s hrssi
  have hout : scan_candidate s.app > SUBGHZ_FREQUENCY_MAX ∨
      scan_candidate s.app < SUBGHZ_FREQUENCY_MIN →
      (radio_scanner_process_scanning hal fuel s).1.app.frequency = SUBGHZ_FREQUENCY_MIN := by
    intro hcase
    have hreset : reset_out_of_range (scan_candidate s.app) = SUBGHZ_FREQUENCY_MIN := by
      unfold reset_out_of_range
      rw [if_pos hcase]
    rw [happ]
    simp [hreset]
  refine ⟨fun _ hcase => ⟨hret, hout hcase⟩, ?_, ?_⟩
  · intro hf hdir
    apply hout
    left
    unfold scan_candidate u32_add
    rw [if_pos hdir, hf]
    decide
  · intro hf hdir
    apply hout
    right
    have hne : s.app.scan_direction ≠ ScanDirection.ScanDirectionUp := by rw [hdir]; decide
    unfold scan_candidate u32_sub
    rw [if_neg hne, hf]
    decide

/-- Witness for `wraparound_to_minimum`: at 928,000,000 Hz scanning up, in two
environments, and at 300,000,000 Hz scanning down. -/
theorem wraparound_to_minimum_witness :
    halQuiet.furi_hal_subghz_get_rssi
        (Sys.scanningAt 928000000 ScanDirection.ScanDirectionUp).rssi_calls ≤
      (Sys.scanningAt 928000000 ScanDirection.ScanDirectionUp).app.sensitivity ∧
    (radio_scanner_process_scanning halQuiet 0
      (Sys.scanningAt 928000000 ScanDirection.ScanDirectionUp)).1.app.frequency = 300000000 ∧
    (radio_scanner_process_scanning halBandEdge 0
      (Sys.scanningAt 928000000 ScanDirection.ScanDirectionUp)).1.app.frequency = 300000000 ∧
    (radio_scanner_process_scanning halQuiet 0
      (Sys.scanningAt 300000000 ScanDirection.ScanDirectionDown)).1.app.frequency =
      300000000 :=
  ⟨by decide,
    (wraparound_to_minimum halQuiet 0 (Sys.scanningAt 928000000 ScanDirection.ScanDirectionUp)
      (by decide)).2.1 rfl rfl,
    ((wraparound_to_minimum halBandEdge 0
      (Sys.scanningAt 928000000 ScanDirection.ScanDirectionUp) (by decide)).1
        (by decide) (by decide)).2,
    (wraparound_to_minimum halQuiet 0
      (Sys.scanningAt 300000000 ScanDirection.ScanDirectionDown) (by decide)).2.2 rfl rfl⟩

/-! ## Claims about the main loop -/

/-- C5 (as stated, refuted): an iteration that starts locked, receives no event and measures
`-110`, below the threshold `-105`, returns with `scanning` still `false`. -/
theorem locked_not_released_on_signal_loss :
    Sys.locked.app.scanning = false ∧
    halQuiet.furi_message_queue_get Sys.locked.queue_calls = none ∧
    halQuiet.furi_hal_subghz_get_rssi Sys.locked.rssi_calls ≤ Sys.locked.app.sensitivity ∧
    (radio_scanner_app_iteration halQuiet 0 Sys.locked).2 = some () ∧
    (radio_scanner_app_iteration halQuiet 0 Sys.locked).1.app.scanning = false := by
  decide

/-- C5 (amended): an iteration that starts with `scanning = false` and receives no event
returns, whatever the sample is, with `scanning = false`: it stores the sample in `rssi` and
changes no other field of the program state and not the tuned frequency. -/
theorem locked_iteration_only_samples (hal : Hal) (fuel : Nat) (s : Sys)
    (hlocked : s.app.scanning = false)
    (hnone : hal.furi_message_queue_get s.queue_calls = none) :
    (radio_scanner_app_iteration hal fuel s).2 = some () ∧
    (radio_scanner_app_iteration hal fuel s).1.app.scanning = false ∧
    (radio_scanner_app_iteration hal fuel s).1.app =
      { s.app with rssi := hal.furi_hal_subghz_get_rssi s.rssi_calls } ∧
    (radio_scanner_app_iteration hal fuel s).1.tuned = s.tuned := by
  have hstep : radio_scanner_app_iteration hal fuel s =
      (({ radio_scanner_update_rssi hal s with
          queue_calls := s.queue_calls + 1 } : Sys).call (HalCall.furi_delay_ms 10),
        some ()) := by
    simp [radio_scanner_app_iteration, hlocked, hnone, radio_scanner_update_rssi, Sys.call]
  rw [hstep]
  refine ⟨rfl, hlocked, ?_, rfl⟩
  simp [radio_scanner_update_rssi, Sys.call]

/-- Witness for `locked_iteration_only_samples`: the locked default state, no key pressed. -/
theorem locked_iteration_only_samples_witness :
    Sys.locked.app.scanning = false ∧
    halQuiet.furi_message_queue_get Sys.locked.queue_calls = none ∧
    (radio_scanner_app_iteration halQuiet 0 Sys.locked).1.app.scanning = false ∧
    (radio_scanner_app_iteration halSignal 0 Sys.locked).1.app.scanning = false :=
  ⟨rfl, rfl, (locked_iteration_only_samples halQuiet 0 Sys.locked rfl rfl).2.1,
    (locked_iteration_only_samples halSignal 0 Sys.locked rfl rfl).2.1⟩

/-- Pressing Up `k` times from the allocated state raises the threshold by `5 * k`, exactly,
as long as it stays below `2 ^ 24`. -/
theorem presses_up_exact (k : ℕ) (hk : k ≤ 3355464) :
    Nat.iterate (radio_scanner_app_handle_event shortUp) k radio_scanner_app_alloc =
      { radio_scanner_app_alloc with sensitivity := ((-105 + 5 * (k : ℤ) : ℤ) : ℚ) } := by
  induction k with
  | zero => simp [radio_scanner_app_alloc]
  | succ k ih =>
    rw [Function.iterate_succ_apply', ih (by omega)]
    have hstep := (f32_step_int (-105 + 5 * (k : ℤ)) (by
      have : |(-105 + 5 * (k : ℤ))| ≤ 16777210 := by
        rw [abs_le]; constructor <;> omega
      norm_num
      omega)).1
    show ({ radio_scanner_app_alloc with
      sensitivity := f32_add ((-105 + 5 * (k : ℤ) : ℤ) : ℚ) 5 } : RadioScannerApp) = _
    have hz : (-105 + 5 * (k : ℤ) + 5 : ℤ) = -105 + 5 * ((k + 1 : ℕ) : ℤ) := by
      push_cast; ring
    rw [hstep, hz]

/-- The value 16,777,220 is a binary32 value, and 16,777,225 rounds to 16,777,224. -/
theorem f32_round_above_two_pow_24 :
    f32_round 16777220 = 16777220 ∧ f32_round (16777220 + 5) = 16777224 := by
  have hl1 : Int.log 2 |(16777220 : ℚ)| = 24 := by
    apply log2_eq <;> norm_num
  have hl2 : Int.log 2 |(16777220 + 5 : ℚ)| = 24 := by
    apply log2_eq <;> norm_num
  constructor
  · apply f32_round_exact _ 8388610
    unfold f32_quantum
    rw [hl1]
    norm_num
  · unfold f32_round f32_quantum round_half_even
    rw [hl2]
    norm_num

/-- C9 (as stated, refuted): after 3,355,465 short presses of Up the threshold is
16,777,220, itself a binary32 value, and one more short press of Up sets it to 16,777,224,
not to 16,777,225: `+= 5.0f` rounds. -/
theorem sensitivity_step_rounds :
    Nat.iterate (radio_scanner_app_handle_event shortUp) 3355465 radio_scanner_app_alloc =
      appHighThreshold ∧
    f32_round appHighThreshold.sensitivity = appHighThreshold.sensitivity ∧
    (radio_scanner_app_handle_event shortUp appHighThreshold).sensitivity = 16777224 ∧
    (radio_scanner_app_handle_event shortUp appHighThreshold).sensitivity ≠
      appHighThreshold.sensitivity + 5 := by
  have hround := f32_round_above_two_pow_24
  have hup : (radio_scanner_app_handle_event shortUp appHighThreshold).sensitivity =
      16777224 := hround.2
  refine ⟨?_, hround.1, hup, ?_⟩
  · have hprev := presses_up_exact 3355464 (le_refl _)
    have hsucc : Nat.iterate (radio_scanner_app_handle_event shortUp) (3355464 + 1)
        radio_scanner_app_alloc =
        radio_scanner_app_handle_event shortUp
          (Nat.iterate (radio_scanner_app_handle_event shortUp) 3355464
            radio_scanner_app_alloc) :=
      Function.iterate_succ_apply' _ _ _
    rw [hprev] at hsucc
    have hlast : f32_add (((-105 + 5 * ((3355464 : ℕ) : ℤ) : ℤ)) : ℚ) 5 = 16777220 := by
      unfold f32_add
      norm_num
      exact hround.1
    have hstate : radio_scanner_app_handle_event shortUp
        { radio_scanner_app_alloc with
          sensitivity := ((-105 + 5 * ((3355464 : ℕ) : ℤ) : ℤ) : ℚ) } = appHighThreshold := by
      show ({ radio_scanner_app_alloc with
        sensitivity := f32_add (((-105 + 5 * ((3355464 : ℕ) : ℤ) : ℤ)) : ℚ) 5 } :
          RadioScannerApp) = _
      rw [hlast]
      rfl
    rw [hstate] at hsucc
    exact hsucc
  · rw [hup]
    show (16777224 : ℚ) ≠ 16777220 + 5
    norm_num

/-- C9 (amended): the effect of one event on the program state.  A short press of Ok
negates `scanning`, Up sets `sensitivity` to `sensitivity + 5` rounded to binary32, Down to
`sensitivity - 5` rounded to binary32, Left sets the direction to down, Right sets it to
up, Back clears `running`, each leaving all other fields as they were; no event changes
`frequency` or `rssi`; an event that is not a short press changes nothing.  The rounded sum
and difference are the exact ones whenever `sensitivity` is an integer `z` with
`|z| + 5 ≤ 2 ^ 24`.  A toggle at `scanning = false` gives `scanning = true`, and three
short presses of Down from the default state give `sensitivity = -120`. -/
theorem command_effects (app : RadioScannerApp) :
    radio_scanner_app_handle_event ⟨InputType.InputTypeShort, InputKey.InputKeyOk⟩ app =
      { app with scanning := !app.scanning } ∧
    radio_scanner_app_handle_event ⟨InputType.InputTypeShort, InputKey.InputKeyUp⟩ app =
      { app with sensitivity := f32_add app.sensitivity 5 } ∧
    radio_scanner_app_handle_event ⟨InputType.InputTypeShort, InputKey.InputKeyDown⟩ app =
      { app with sensitivity := f32_sub app.sensitivity 5 } ∧
    radio_scanner_app_handle_event ⟨InputType.InputTypeShort, InputKey.InputKeyLeft⟩ app =
      { app with scan_direction := ScanDirection.ScanDirectionDown } ∧
    radio_scanner_app_handle_event ⟨InputType.InputTypeShort, InputKey.InputKeyRight⟩ app =
      { app with scan_direction := ScanDirection.ScanDirectionUp } ∧
    radio_scanner_app_handle_event ⟨InputType.InputTypeShort, InputKey.InputKeyBack⟩ app =
      { app with running := false } ∧
    (∀ event : InputEvent,
      (radio_scanner_app_handle_event event app).frequency = app.frequency ∧
      (radio_scanner_app_handle_event event app).rssi = app.rssi) ∧
    (∀ event : InputEvent, event.type ≠ InputType.InputTypeShort →
      radio_scanner_app_handle_event event app = app) ∧
    (∀ z : ℤ, app.sensitivity = (z : ℚ) → |z| + 5 ≤ 2 ^ 24 →
      (radio_scanner_app_handle_event ⟨InputType.InputTypeShort, InputKey.InputKeyUp⟩
        app).sensitivity = (z : ℚ) + 5 ∧
      (radio_scanner_app_handle_event ⟨InputType.InputTypeShort, InputKey.InputKeyDown⟩
        app).sensitivity = (z : ℚ) - 5) ∧
    (app.scanning = false →
      (radio_scanner_app_handle_event ⟨InputType.InputTypeShort, InputKey.InputKeyOk⟩
        app).scanning = true) ∧
    (radio_scanner_app_handle_event ⟨InputType.InputTypeShort, InputKey.InputKeyDown⟩
      (radio_scanner_app_handle_event ⟨InputType.InputTypeShort, InputKey.InputKeyDown⟩
        (radio_scanner_app_handle_event ⟨InputType.InputTypeShort, InputKey.InputKeyDown⟩
          radio_scanner_app_alloc))).sensitivity = -120 ∧
    (∀ (hal : Hal) (fuel : Nat) (s : Sys) (event : InputEvent),
      s.app.scanning = false → hal.furi_message_queue_get s.queue_calls = some event →
      (radio_scanner_app_iteration hal fuel s).1.app =
        radio_scanner_app_handle_event event (radio_scanner_update_rssi hal s).app) := by
  refine ⟨rfl, rfl, rfl, rfl, rfl, rfl, ?_, ?_, ?_, ?_, ?_, ?_⟩
  · intro event
    exact ⟨(handle_event_frame event app).1, (handle_event_frame event app).2.1⟩
  · intro event hne
    unfold radio_scanner_app_handle_event
    rw [if_neg hne]
  · intro z hz hbound
    obtain ⟨hadd, hsub⟩ := f32_step_int z hbound
    constructor
    · show f32_add app.sensitivity 5 = (z : ℚ) + 5
      rw [hz, hadd]; push_cast; rfl
    · show f32_sub app.sensitivity 5 = (z : ℚ) - 5
      rw [hz, hsub]; push_cast; rfl
  · intro hlocked
    show (!app.scanning) = true
    rw [hlocked]; rfl
  · have h1 : f32_sub (-105) 5 = -110 := by
      have h := (f32_step_int (-105) (by norm_num)).2
      norm_num at h
      exact h
    have h2 : f32_sub (-110) 5 = -115 := by
      have h := (f32_step_int (-110) (by norm_num)).2
      norm_num at h
      exact h
    have h3 : f32_sub (-115) 5 = -120 := by
      have h := (f32_step_int (-115) (by norm_num)).2
      norm_num at h
      exact h
    show f32_sub (f32_sub (f32_sub (-105) 5) 5) 5 = -120
    rw [h1, h2, h3]
  · intro hal fuel s event hlocked hev
    have hpoll : hal.furi_message_queue_get (radio_scanner_update_rssi hal s).queue_calls =
        some event := hev
    unfold radio_scanner_app_iteration
    simp only [hlocked, Bool.false_eq_true, if_false, hpoll]
    rfl

/-- Witness for `command_effects`: toggling the locked default state, a long press, and a
short press of Up at the default threshold `-105`. -/
theorem command_effects_witness :
    (radio_scanner_app_handle_event ⟨InputType.InputTypeShort, InputKey.InputKeyOk⟩
      Sys.locked.app).scanning = true ∧
    radio_scanner_app_handle_event ⟨InputType.InputTypeLong, InputKey.InputKeyOk⟩
      Sys.locked.app = Sys.locked.app ∧
    (radio_scanner_app_handle_event ⟨InputType.InputTypeShort, InputKey.InputKeyUp⟩
      Sys.locked.app).sensitivity = ((-105 : ℤ) : ℚ) + 5 :=
  ⟨(command_effects Sys.locked.app).2.2.2.2.2.2.2.2.2.1 rfl,
    (command_effects Sys.locked.app).2.2.2.2.2.2.2.1
      ⟨InputType.InputTypeLong, InputKey.InputKeyOk⟩ (by decide),
    ((command_effects Sys.locked.app).2.2.2.2.2.2.2.2.1 (-105)
      (by simp [Sys.locked, radio_scanner_app_alloc]) (by norm_num)).1⟩

/-! ## Claims about the speaker -/

/-- C7 (the code departs from the claim): without a radio device, `speaker_on` is not
bounded by five calls of `furi_hal_speaker_acquire`.  When every acquisition succeeds it
never returns, having made as many calls as it was given fuel; when only the first
acquisition succeeds it returns `false` after six calls. -/
theorem speaker_on_unbounded_without_device :
    Sys.start.app.radio_device = none ∧
    (∀ fuel : Nat,
      (speaker_on halAcquireAlways fuel Sys.start).2 = none ∧
      (speaker_on halAcquireAlways fuel Sys.start).1.acquire_calls = fuel) ∧
    (speaker_on halAcquireOnce 7 Sys.start).2 = some false ∧
    (speaker_on halAcquireOnce 7 Sys.start).1.acquire_calls = 6 := by
  refine ⟨rfl, ?_, by decide, by decide⟩
  intro fuel
  have h := speaker_on_loop_spins halAcquireAlways (fun _ => rfl) fuel 0 Sys.start
    (by decide) rfl
  refine ⟨h.1, ?_⟩
  have h2 := h.2
  rw [show Sys.start.acquire_calls = 0 from rfl, Nat.zero_add] at h2
  exact h2

/-- A tick of a scanning state whose sample is above the threshold, in which `speaker_on`
returns (with either result), returns with `scanning = false` and `frequency` unchanged;
`furi_hal_speaker_acquire` was called, the receiver stays tuned where it was, and the calls
added to the trace contain no `furi_hal_subghz_set_frequency`. -/
theorem process_scanning_locks (hal : Hal) (fuel : Nat) (s : Sys) (r : Bool)
    (hscan : s.app.scanning = true)
    (hrssi : hal.furi_hal_subghz_get_rssi s.rssi_calls > s.app.sensitivity)
    (hspk : (speaker_on hal fuel (radio_scanner_update_rssi hal s)).2 = some r) :
    (radio_scanner_process_scanning hal fuel s).2 = some () ∧
    (radio_scanner_process_scanning hal fuel s).1.app.scanning = false ∧
    (radio_scanner_process_scanning hal fuel s).1.app.frequency = s.app.frequency ∧
    (radio_scanner_process_scanning hal fuel s).1.tuned = s.tuned ∧
    s.acquire_calls < (radio_scanner_process_scanning hal fuel s).1.acquire_calls ∧
    ∃ new, (radio_scanner_process_scanning hal fuel s).1.trace = new ++ s.trace ∧
      ∀ f, HalCall.furi_hal_subghz_set_frequency f ∉ new := by
  have hdet : (radio_scanner_update_rssi hal s).app.rssi >
      (radio_scanner_update_rssi hal s).app.sensitivity := hrssi
  have hscan1 : (radio_scanner_update_rssi hal s).app.scanning = true := hscan
  obtain ⟨h1, h2, _, _, _, new, h6, h7⟩ :=
    speaker_on_loop_frame hal fuel 0 (radio_scanner_update_rssi hal s)
  have hcalls := (speaker_on_loop_calls hal fuel 0 (radio_scanner_update_rssi hal s)).2
    (by decide) r hspk
  unfold speaker_on at hspk
  unfold radio_scanner_process_scanning
  simp only [speaker_on, hdet, hscan1, decide_True, if_true]
  rcases hres : speaker_on_loop hal fuel 0 (radio_scanner_update_rssi hal s) with ⟨s2, res⟩
  rw [hres] at hspk h1 h2 h6 hcalls
  simp only at hspk h1 h2 h6 hcalls
  subst hspk
  simp only [radio_scanner_advance_frequency, Bool.false_eq_true, if_false]
  refine ⟨trivial, trivial, by rw [h1]; rfl, by rw [h2]; rfl, hcalls,
    new ++ [HalCall.furi_hal_subghz_get_rssi], ?_, ?_⟩
  · rw [h6]
    simp [radio_scanner_update_rssi]
  · intro f hmem
    rcases List.mem_append.1 hmem with hmem | hmem
    · rcases h7 _ hmem with h | h | ⟨_, _, h⟩ <;> cases h
    · simp at hmem

/-- C2 (the code departs from the claim): in the allocated state, scanning, with a sample of
`-90` above the threshold `-105` and every speaker acquisition succeeding, the tick never
returns: whatever the fuel, `speaker_on` is still looping, `scanning` is still `true`, and
one `furi_hal_speaker_acquire` call was made per unit of fuel. -/
theorem lock_blocked_by_speaker_loop :
    Sys.start.app.scanning = true ∧
    Sys.start.app.radio_device = none ∧
    halSignalAcquireAlways.furi_hal_subghz_get_rssi Sys.start.rssi_calls >
      Sys.start.app.sensitivity ∧
    ∀ fuel : Nat,
      (radio_scanner_process_scanning halSignalAcquireAlways fuel Sys.start).2 = none ∧
      (radio_scanner_process_scanning halSignalAcquireAlways fuel Sys.start).1.app.scanning =
        true ∧
      (radio_scanner_process_scanning halSignalAcquireAlways fuel Sys.start).1.acquire_calls =
        fuel := by
  refine ⟨rfl, rfl, by decide, ?_⟩
  intro fuel
  have hdet : (radio_scanner_update_rssi halSignalAcquireAlways Sys.start).app.rssi >
      (radio_scanner_update_rssi halSignalAcquireAlways Sys.start).app.sensitivity := by
    decide
  have hscan : (radio_scanner_update_rssi halSignalAcquireAlways Sys.start).app.scanning =
      true := rfl
  obtain ⟨hnone, hcalls⟩ := speaker_on_loop_spins halSignalAcquireAlways (fun _ => rfl) fuel 0
    (radio_scanner_update_rssi halSignalAcquireAlways Sys.start) (by decide) rfl
  obtain ⟨happ, _⟩ := speaker_on_loop_frame halSignalAcquireAlways fuel 0
    (radio_scanner_update_rssi halSignalAcquireAlways Sys.start)
  unfold radio_scanner_process_scanning
  simp only [speaker_on, hdet, hscan, decide_True, if_true]
  rcases hres : speaker_on_loop halSignalAcquireAlways fuel 0
      (radio_scanner_update_rssi halSignalAcquireAlways Sys.start) with ⟨s2, res⟩
  rw [hres] at hnone hcalls happ
  simp only at hnone hcalls happ
  subst hnone
  refine ⟨rfl, ?_, ?_⟩
  · show s2.app.scanning = true
    rw [happ]; rfl
  · show s2.acquire_calls = fuel
    rw [hcalls]
    show 0 + fuel = fuel
    omega

/-- What the tick does whenever the loop of `speaker_on` can end, that is, when a radio
device is present or five of the next `k` acquisitions fail: with `k + 6` units of fuel it
returns with `scanning = false` and `frequency` unchanged, `furi_hal_speaker_acquire` was
called, the receiver stays tuned where it was, and the calls added to the trace contain no
`furi_hal_subghz_set_frequency`. -/
theorem process_scanning_locks_when_speaker_ends (hal : Hal) (fuel k : Nat) (s : Sys)
    (hscan : s.app.scanning = true)
    (hrssi : hal.furi_hal_subghz_get_rssi s.rssi_calls > s.app.sensitivity)
    (hend : s.app.radio_device ≠ none ∨ 5 ≤ failed_acquisitions hal s.acquire_calls k)
    (hfuel : k + 6 ≤ fuel) :
    (radio_scanner_process_scanning hal fuel s).2 = some () ∧
    (radio_scanner_process_scanning hal fuel s).1.app.scanning = false ∧
    (radio_scanner_process_scanning hal fuel s).1.app.frequency = s.app.frequency ∧
    (radio_scanner_process_scanning hal fuel s).1.tuned = s.tuned ∧
    s.acquire_calls < (radio_scanner_process_scanning hal fuel s).1.acquire_calls ∧
    ∃ new, (radio_scanner_process_scanning hal fuel s).1.trace = new ++ s.trace ∧
      ∀ f, HalCall.furi_hal_subghz_set_frequency f ∉ new := by
  have hret : ∃ r, (speaker_on hal fuel (radio_scanner_update_rssi hal s)).2 = some r := by
    unfold speaker_on
    rcases hend with hdev | hfail
    · cases hd : s.app.radio_device with
      | none => exact absurd hd hdev
      | some d =>
        obtain ⟨r, hr, _⟩ := speaker_on_loop_bounded_with_device hal d fuel 0
          (radio_scanner_update_rssi hal s) hd (by omega) (by omega)
        exact ⟨r, hr⟩
    · exact speaker_on_loop_returns hal k 0 (radio_scanner_update_rssi hal s) fuel (by omega)
        hfail (by omega)
  obtain ⟨r, hr⟩ := hret
  exact process_scanning_locks hal fuel s r hscan hrssi hr

/-- An instance of `process_scanning_locks_when_speaker_ends`: the default state with a
sample of `-90` while the speaker is held by someone else, so that `speaker_on` gives up
after five attempts. -/
theorem process_scanning_locks_when_speaker_busy :
    Sys.start.app.scanning = true ∧
    halSignal.furi_hal_subghz_get_rssi Sys.start.rssi_calls > Sys.start.app.sensitivity ∧
    5 ≤ failed_acquisitions halSignal Sys.start.acquire_calls 5 ∧
    (radio_scanner_process_scanning halSignal 11 Sys.start).2 = some () ∧
    (radio_scanner_process_scanning halSignal 11 Sys.start).1.app.scanning = false ∧
    (radio_scanner_process_scanning halSignal 11 Sys.start).1.app.frequency = 433920000 :=
  ⟨rfl, by decide, by decide,
    (process_scanning_locks_when_speaker_ends halSignal 11 5 Sys.start rfl (by decide) (Or.inr (by decide))
      (by decide)).1,
    (process_scanning_locks_when_speaker_ends halSignal 11 5 Sys.start rfl (by decide) (Or.inr (by decide))
      (by decide)).2.1,
    (process_scanning_locks_when_speaker_ends halSignal 11 5 Sys.start rfl (by decide) (Or.inr (by decide))
      (by decide)).2.2.1⟩

end RadioScanner
